import Mathlib

set_option maxRecDepth 100000

/-
Verification of the betacode-rs library: a shallow embedding, over lists of
Unicode scalar values, of the conversion pipeline of
src/betacode/src/lib.rs (module converter) and of the validator of the same
file (module validator), together with the parts of the CLI front end
(src/cli/src/main.rs) needed by the properties under study.

Rust strings are modelled as lists of chars.  Fallible code is modelled with
Option: a run of the Rust code that panics is mapped to none.  The Unicode
operations used by the crate (to_lowercase, NFKC normalization) come from the
Rust standard library and the unicode_normalization crate; they are embedded
here restricted to the character domain reachable in this development (ASCII
plus the Greek and Greek-Extended blocks), with tables generated from
UnicodeData.
-/

deriving instance DecidableEq for Except

namespace Betacode

/-- A Rust string, as its sequence of chars. -/
abbrev Str := List Char

/-- Single-character lowercase mappings of the Greek and Greek-Extended blocks,
as applied by `str::to_lowercase` (modelled on this character domain). -/
def greekLowerTable : List (Char × Char) :=
  [('\u0370', '\u0371'), ('\u0372', '\u0373'), ('\u0376', '\u0377'), ('\u037f', '\u03f3'),
   ('\u0386', '\u03ac'), ('\u0388', '\u03ad'), ('\u0389', '\u03ae'), ('\u038a', '\u03af'),
   ('\u038c', '\u03cc'), ('\u038e', '\u03cd'), ('\u038f', '\u03ce'), ('\u0391', '\u03b1'),
   ('\u0392', '\u03b2'), ('\u0393', '\u03b3'), ('\u0394', '\u03b4'), ('\u0395', '\u03b5'),
   ('\u0396', '\u03b6'), ('\u0397', '\u03b7'), ('\u0398', '\u03b8'), ('\u0399', '\u03b9'),
   ('\u039a', '\u03ba'), ('\u039b', '\u03bb'), ('\u039c', '\u03bc'), ('\u039d', '\u03bd'),
   ('\u039e', '\u03be'), ('\u039f', '\u03bf'), ('\u03a0', '\u03c0'), ('\u03a1', '\u03c1'),
   ('\u03a3', '\u03c3'), ('\u03a4', '\u03c4'), ('\u03a5', '\u03c5'), ('\u03a6', '\u03c6'),
   ('\u03a7', '\u03c7'), ('\u03a8', '\u03c8'), ('\u03a9', '\u03c9'), ('\u03aa', '\u03ca'),
   ('\u03ab', '\u03cb'), ('\u03cf', '\u03d7'), ('\u03d8', '\u03d9'), ('\u03da', '\u03db'),
   ('\u03dc', '\u03dd'), ('\u03de', '\u03df'), ('\u03e0', '\u03e1'), ('\u03e2', '\u03e3'),
   ('\u03e4', '\u03e5'), ('\u03e6', '\u03e7'), ('\u03e8', '\u03e9'), ('\u03ea', '\u03eb'),
   ('\u03ec', '\u03ed'), ('\u03ee', '\u03ef'), ('\u03f4', '\u03b8'), ('\u03f7', '\u03f8'),
   ('\u03f9', '\u03f2'), ('\u03fa', '\u03fb'), ('\u03fd', '\u037b'), ('\u03fe', '\u037c'),
   ('\u03ff', '\u037d'), ('\u1f08', '\u1f00'), ('\u1f09', '\u1f01'), ('\u1f0a', '\u1f02'),
   ('\u1f0b', '\u1f03'), ('\u1f0c', '\u1f04'), ('\u1f0d', '\u1f05'), ('\u1f0e', '\u1f06'),
   ('\u1f0f', '\u1f07'), ('\u1f18', '\u1f10'), ('\u1f19', '\u1f11'), ('\u1f1a', '\u1f12'),
   ('\u1f1b', '\u1f13'), ('\u1f1c', '\u1f14'), ('\u1f1d', '\u1f15'), ('\u1f28', '\u1f20'),
   ('\u1f29', '\u1f21'), ('\u1f2a', '\u1f22'), ('\u1f2b', '\u1f23'), ('\u1f2c', '\u1f24'),
   ('\u1f2d', '\u1f25'), ('\u1f2e', '\u1f26'), ('\u1f2f', '\u1f27'), ('\u1f38', '\u1f30'),
   ('\u1f39', '\u1f31'), ('\u1f3a', '\u1f32'), ('\u1f3b', '\u1f33'), ('\u1f3c', '\u1f34'),
   ('\u1f3d', '\u1f35'), ('\u1f3e', '\u1f36'), ('\u1f3f', '\u1f37'), ('\u1f48', '\u1f40'),
   ('\u1f49', '\u1f41'), ('\u1f4a', '\u1f42'), ('\u1f4b', '\u1f43'), ('\u1f4c', '\u1f44'),
   ('\u1f4d', '\u1f45'), ('\u1f59', '\u1f51'), ('\u1f5b', '\u1f53'), ('\u1f5d', '\u1f55'),
   ('\u1f5f', '\u1f57'), ('\u1f68', '\u1f60'), ('\u1f69', '\u1f61'), ('\u1f6a', '\u1f62'),
   ('\u1f6b', '\u1f63'), ('\u1f6c', '\u1f64'), ('\u1f6d', '\u1f65'), ('\u1f6e', '\u1f66'),
   ('\u1f6f', '\u1f67'), ('\u1f88', '\u1f80'), ('\u1f89', '\u1f81'), ('\u1f8a', '\u1f82'),
   ('\u1f8b', '\u1f83'), ('\u1f8c', '\u1f84'), ('\u1f8d', '\u1f85'), ('\u1f8e', '\u1f86'),
   ('\u1f8f', '\u1f87'), ('\u1f98', '\u1f90'), ('\u1f99', '\u1f91'), ('\u1f9a', '\u1f92'),
   ('\u1f9b', '\u1f93'), ('\u1f9c', '\u1f94'), ('\u1f9d', '\u1f95'), ('\u1f9e', '\u1f96'),
   ('\u1f9f', '\u1f97'), ('\u1fa8', '\u1fa0'), ('\u1fa9', '\u1fa1'), ('\u1faa', '\u1fa2'),
   ('\u1fab', '\u1fa3'), ('\u1fac', '\u1fa4'), ('\u1fad', '\u1fa5'), ('\u1fae', '\u1fa6'),
   ('\u1faf', '\u1fa7'), ('\u1fb8', '\u1fb0'), ('\u1fb9', '\u1fb1'), ('\u1fba', '\u1f70'),
   ('\u1fbb', '\u1f71'), ('\u1fbc', '\u1fb3'), ('\u1fc8', '\u1f72'), ('\u1fc9', '\u1f73'),
   ('\u1fca', '\u1f74'), ('\u1fcb', '\u1f75'), ('\u1fcc', '\u1fc3'), ('\u1fd8', '\u1fd0'),
   ('\u1fd9', '\u1fd1'), ('\u1fda', '\u1f76'), ('\u1fdb', '\u1f77'), ('\u1fe8', '\u1fe0'),
   ('\u1fe9', '\u1fe1'), ('\u1fea', '\u1f7a'), ('\u1feb', '\u1f7b'), ('\u1fec', '\u1fe5'),
   ('\u1ff8', '\u1f78'), ('\u1ff9', '\u1f79'), ('\u1ffa', '\u1f7c'), ('\u1ffb', '\u1f7d'),
   ('\u1ffc', '\u1ff3')]

/-- Canonical combining classes of the Combining Diacritical Marks block
(U+0300 to U+036F), from UnicodeData; characters outside the table have class 0. -/
def cccTable : List (Char × Nat) :=
  [('\u0300', 230), ('\u0301', 230), ('\u0302', 230), ('\u0303', 230), ('\u0304', 230), ('\u0305', 230),
   ('\u0306', 230), ('\u0307', 230), ('\u0308', 230), ('\u0309', 230), ('\u030a', 230), ('\u030b', 230),
   ('\u030c', 230), ('\u030d', 230), ('\u030e', 230), ('\u030f', 230), ('\u0310', 230), ('\u0311', 230),
   ('\u0312', 230), ('\u0313', 230), ('\u0314', 230), ('\u0315', 232), ('\u0316', 220), ('\u0317', 220),
   ('\u0318', 220), ('\u0319', 220), ('\u031a', 232), ('\u031b', 216), ('\u031c', 220), ('\u031d', 220),
   ('\u031e', 220), ('\u031f', 220), ('\u0320', 220), ('\u0321', 202), ('\u0322', 202), ('\u0323', 220),
   ('\u0324', 220), ('\u0325', 220), ('\u0326', 220), ('\u0327', 202), ('\u0328', 202), ('\u0329', 220),
   ('\u032a', 220), ('\u032b', 220), ('\u032c', 220), ('\u032d', 220), ('\u032e', 220), ('\u032f', 220),
   ('\u0330', 220), ('\u0331', 220), ('\u0332', 220), ('\u0333', 220), ('\u0334', 1), ('\u0335', 1),
   ('\u0336', 1), ('\u0337', 1), ('\u0338', 1), ('\u0339', 220), ('\u033a', 220), ('\u033b', 220),
   ('\u033c', 220), ('\u033d', 230), ('\u033e', 230), ('\u033f', 230), ('\u0340', 230), ('\u0341', 230),
   ('\u0342', 230), ('\u0343', 230), ('\u0344', 230), ('\u0345', 240), ('\u0346', 230), ('\u0347', 220),
   ('\u0348', 220), ('\u0349', 220), ('\u034a', 230), ('\u034b', 230), ('\u034c', 230), ('\u034d', 220),
   ('\u034e', 220), ('\u0350', 230), ('\u0351', 230), ('\u0352', 230), ('\u0353', 220), ('\u0354', 220),
   ('\u0355', 220), ('\u0356', 220), ('\u0357', 230), ('\u0358', 232), ('\u0359', 220), ('\u035a', 220),
   ('\u035b', 230), ('\u035c', 233), ('\u035d', 234), ('\u035e', 234), ('\u035f', 233), ('\u0360', 234),
   ('\u0361', 234), ('\u0362', 233), ('\u0363', 230), ('\u0364', 230), ('\u0365', 230), ('\u0366', 230),
   ('\u0367', 230), ('\u0368', 230), ('\u0369', 230), ('\u036a', 230), ('\u036b', 230), ('\u036c', 230),
   ('\u036d', 230), ('\u036e', 230), ('\u036f', 230)]

/-- Full compatibility decompositions (NFKD) of the characters of the Greek and
Greek-Extended blocks and of U+00B3 that are not NFKD-stable. -/
def kdecompTable : List (Char × List Char) :=
  [('\u0374', ['\u02b9']), ('\u037a', ['\u0020', '\u0345']),
   ('\u037e', ['\u003b']), ('\u0384', ['\u0020', '\u0301']),
   ('\u0385', ['\u0020', '\u0308', '\u0301']), ('\u0386', ['\u0391', '\u0301']),
   ('\u0387', ['\u00b7']), ('\u0388', ['\u0395', '\u0301']),
   ('\u0389', ['\u0397', '\u0301']), ('\u038a', ['\u0399', '\u0301']),
   ('\u038c', ['\u039f', '\u0301']), ('\u038e', ['\u03a5', '\u0301']),
   ('\u038f', ['\u03a9', '\u0301']), ('\u0390', ['\u03b9', '\u0308', '\u0301']),
   ('\u03aa', ['\u0399', '\u0308']), ('\u03ab', ['\u03a5', '\u0308']),
   ('\u03ac', ['\u03b1', '\u0301']), ('\u03ad', ['\u03b5', '\u0301']),
   ('\u03ae', ['\u03b7', '\u0301']), ('\u03af', ['\u03b9', '\u0301']),
   ('\u03b0', ['\u03c5', '\u0308', '\u0301']), ('\u03ca', ['\u03b9', '\u0308']),
   ('\u03cb', ['\u03c5', '\u0308']), ('\u03cc', ['\u03bf', '\u0301']),
   ('\u03cd', ['\u03c5', '\u0301']), ('\u03ce', ['\u03c9', '\u0301']),
   ('\u03d0', ['\u03b2']), ('\u03d1', ['\u03b8']),
   ('\u03d2', ['\u03a5']), ('\u03d3', ['\u03a5', '\u0301']),
   ('\u03d4', ['\u03a5', '\u0308']), ('\u03d5', ['\u03c6']),
   ('\u03d6', ['\u03c0']), ('\u03f0', ['\u03ba']),
   ('\u03f1', ['\u03c1']), ('\u03f2', ['\u03c2']),
   ('\u03f4', ['\u0398']), ('\u03f5', ['\u03b5']),
   ('\u03f9', ['\u03a3']), ('\u1f00', ['\u03b1', '\u0313']),
   ('\u1f01', ['\u03b1', '\u0314']), ('\u1f02', ['\u03b1', '\u0313', '\u0300']),
   ('\u1f03', ['\u03b1', '\u0314', '\u0300']), ('\u1f04', ['\u03b1', '\u0313', '\u0301']),
   ('\u1f05', ['\u03b1', '\u0314', '\u0301']), ('\u1f06', ['\u03b1', '\u0313', '\u0342']),
   ('\u1f07', ['\u03b1', '\u0314', '\u0342']), ('\u1f08', ['\u0391', '\u0313']),
   ('\u1f09', ['\u0391', '\u0314']), ('\u1f0a', ['\u0391', '\u0313', '\u0300']),
   ('\u1f0b', ['\u0391', '\u0314', '\u0300']), ('\u1f0c', ['\u0391', '\u0313', '\u0301']),
   ('\u1f0d', ['\u0391', '\u0314', '\u0301']), ('\u1f0e', ['\u0391', '\u0313', '\u0342']),
   ('\u1f0f', ['\u0391', '\u0314', '\u0342']), ('\u1f10', ['\u03b5', '\u0313']),
   ('\u1f11', ['\u03b5', '\u0314']), ('\u1f12', ['\u03b5', '\u0313', '\u0300']),
   ('\u1f13', ['\u03b5', '\u0314', '\u0300']), ('\u1f14', ['\u03b5', '\u0313', '\u0301']),
   ('\u1f15', ['\u03b5', '\u0314', '\u0301']), ('\u1f18', ['\u0395', '\u0313']),
   ('\u1f19', ['\u0395', '\u0314']), ('\u1f1a', ['\u0395', '\u0313', '\u0300']),
   ('\u1f1b', ['\u0395', '\u0314', '\u0300']), ('\u1f1c', ['\u0395', '\u0313', '\u0301']),
   ('\u1f1d', ['\u0395', '\u0314', '\u0301']), ('\u1f20', ['\u03b7', '\u0313']),
   ('\u1f21', ['\u03b7', '\u0314']), ('\u1f22', ['\u03b7', '\u0313', '\u0300']),
   ('\u1f23', ['\u03b7', '\u0314', '\u0300']), ('\u1f24', ['\u03b7', '\u0313', '\u0301']),
   ('\u1f25', ['\u03b7', '\u0314', '\u0301']), ('\u1f26', ['\u03b7', '\u0313', '\u0342']),
   ('\u1f27', ['\u03b7', '\u0314', '\u0342']), ('\u1f28', ['\u0397', '\u0313']),
   ('\u1f29', ['\u0397', '\u0314']), ('\u1f2a', ['\u0397', '\u0313', '\u0300']),
   ('\u1f2b', ['\u0397', '\u0314', '\u0300']), ('\u1f2c', ['\u0397', '\u0313', '\u0301']),
   ('\u1f2d', ['\u0397', '\u0314', '\u0301']), ('\u1f2e', ['\u0397', '\u0313', '\u0342']),
   ('\u1f2f', ['\u0397', '\u0314', '\u0342']), ('\u1f30', ['\u03b9', '\u0313']),
   ('\u1f31', ['\u03b9', '\u0314']), ('\u1f32', ['\u03b9', '\u0313', '\u0300']),
   ('\u1f33', ['\u03b9', '\u0314', '\u0300']), ('\u1f34', ['\u03b9', '\u0313', '\u0301']),
   ('\u1f35', ['\u03b9', '\u0314', '\u0301']), ('\u1f36', ['\u03b9', '\u0313', '\u0342']),
   ('\u1f37', ['\u03b9', '\u0314', '\u0342']), ('\u1f38', ['\u0399', '\u0313']),
   ('\u1f39', ['\u0399', '\u0314']), ('\u1f3a', ['\u0399', '\u0313', '\u0300']),
   ('\u1f3b', ['\u0399', '\u0314', '\u0300']), ('\u1f3c', ['\u0399', '\u0313', '\u0301']),
   ('\u1f3d', ['\u0399', '\u0314', '\u0301']), ('\u1f3e', ['\u0399', '\u0313', '\u0342']),
   ('\u1f3f', ['\u0399', '\u0314', '\u0342']), ('\u1f40', ['\u03bf', '\u0313']),
   ('\u1f41', ['\u03bf', '\u0314']), ('\u1f42', ['\u03bf', '\u0313', '\u0300']),
   ('\u1f43', ['\u03bf', '\u0314', '\u0300']), ('\u1f44', ['\u03bf', '\u0313', '\u0301']),
   ('\u1f45', ['\u03bf', '\u0314', '\u0301']), ('\u1f48', ['\u039f', '\u0313']),
   ('\u1f49', ['\u039f', '\u0314']), ('\u1f4a', ['\u039f', '\u0313', '\u0300']),
   ('\u1f4b', ['\u039f', '\u0314', '\u0300']), ('\u1f4c', ['\u039f', '\u0313', '\u0301']),
   ('\u1f4d', ['\u039f', '\u0314', '\u0301']), ('\u1f50', ['\u03c5', '\u0313']),
   ('\u1f51', ['\u03c5', '\u0314']), ('\u1f52', ['\u03c5', '\u0313', '\u0300']),
   ('\u1f53', ['\u03c5', '\u0314', '\u0300']), ('\u1f54', ['\u03c5', '\u0313', '\u0301']),
   ('\u1f55', ['\u03c5', '\u0314', '\u0301']), ('\u1f56', ['\u03c5', '\u0313', '\u0342']),
   ('\u1f57', ['\u03c5', '\u0314', '\u0342']), ('\u1f59', ['\u03a5', '\u0314']),
   ('\u1f5b', ['\u03a5', '\u0314', '\u0300']), ('\u1f5d', ['\u03a5', '\u0314', '\u0301']),
   ('\u1f5f', ['\u03a5', '\u0314', '\u0342']), ('\u1f60', ['\u03c9', '\u0313']),
   ('\u1f61', ['\u03c9', '\u0314']), ('\u1f62', ['\u03c9', '\u0313', '\u0300']),
   ('\u1f63', ['\u03c9', '\u0314', '\u0300']), ('\u1f64', ['\u03c9', '\u0313', '\u0301']),
   ('\u1f65', ['\u03c9', '\u0314', '\u0301']), ('\u1f66', ['\u03c9', '\u0313', '\u0342']),
   ('\u1f67', ['\u03c9', '\u0314', '\u0342']), ('\u1f68', ['\u03a9', '\u0313']),
   ('\u1f69', ['\u03a9', '\u0314']), ('\u1f6a', ['\u03a9', '\u0313', '\u0300']),
   ('\u1f6b', ['\u03a9', '\u0314', '\u0300']), ('\u1f6c', ['\u03a9', '\u0313', '\u0301']),
   ('\u1f6d', ['\u03a9', '\u0314', '\u0301']), ('\u1f6e', ['\u03a9', '\u0313', '\u0342']),
   ('\u1f6f', ['\u03a9', '\u0314', '\u0342']), ('\u1f70', ['\u03b1', '\u0300']),
   ('\u1f71', ['\u03b1', '\u0301']), ('\u1f72', ['\u03b5', '\u0300']),
   ('\u1f73', ['\u03b5', '\u0301']), ('\u1f74', ['\u03b7', '\u0300']),
   ('\u1f75', ['\u03b7', '\u0301']), ('\u1f76', ['\u03b9', '\u0300']),
   ('\u1f77', ['\u03b9', '\u0301']), ('\u1f78', ['\u03bf', '\u0300']),
   ('\u1f79', ['\u03bf', '\u0301']), ('\u1f7a', ['\u03c5', '\u0300']),
   ('\u1f7b', ['\u03c5', '\u0301']), ('\u1f7c', ['\u03c9', '\u0300']),
   ('\u1f7d', ['\u03c9', '\u0301']), ('\u1f80', ['\u03b1', '\u0313', '\u0345']),
   ('\u1f81', ['\u03b1', '\u0314', '\u0345']), ('\u1f82', ['\u03b1', '\u0313', '\u0300', '\u0345']),
   ('\u1f83', ['\u03b1', '\u0314', '\u0300', '\u0345']), ('\u1f84', ['\u03b1', '\u0313', '\u0301', '\u0345']),
   ('\u1f85', ['\u03b1', '\u0314', '\u0301', '\u0345']), ('\u1f86', ['\u03b1', '\u0313', '\u0342', '\u0345']),
   ('\u1f87', ['\u03b1', '\u0314', '\u0342', '\u0345']), ('\u1f88', ['\u0391', '\u0313', '\u0345']),
   ('\u1f89', ['\u0391', '\u0314', '\u0345']), ('\u1f8a', ['\u0391', '\u0313', '\u0300', '\u0345']),
   ('\u1f8b', ['\u0391', '\u0314', '\u0300', '\u0345']), ('\u1f8c', ['\u0391', '\u0313', '\u0301', '\u0345']),
   ('\u1f8d', ['\u0391', '\u0314', '\u0301', '\u0345']), ('\u1f8e', ['\u0391', '\u0313', '\u0342', '\u0345']),
   ('\u1f8f', ['\u0391', '\u0314', '\u0342', '\u0345']), ('\u1f90', ['\u03b7', '\u0313', '\u0345']),
   ('\u1f91', ['\u03b7', '\u0314', '\u0345']), ('\u1f92', ['\u03b7', '\u0313', '\u0300', '\u0345']),
   ('\u1f93', ['\u03b7', '\u0314', '\u0300', '\u0345']), ('\u1f94', ['\u03b7', '\u0313', '\u0301', '\u0345']),
   ('\u1f95', ['\u03b7', '\u0314', '\u0301', '\u0345']), ('\u1f96', ['\u03b7', '\u0313', '\u0342', '\u0345']),
   ('\u1f97', ['\u03b7', '\u0314', '\u0342', '\u0345']), ('\u1f98', ['\u0397', '\u0313', '\u0345']),
   ('\u1f99', ['\u0397', '\u0314', '\u0345']), ('\u1f9a', ['\u0397', '\u0313', '\u0300', '\u0345']),
   ('\u1f9b', ['\u0397', '\u0314', '\u0300', '\u0345']), ('\u1f9c', ['\u0397', '\u0313', '\u0301', '\u0345']),
   ('\u1f9d', ['\u0397', '\u0314', '\u0301', '\u0345']), ('\u1f9e', ['\u0397', '\u0313', '\u0342', '\u0345']),
   ('\u1f9f', ['\u0397', '\u0314', '\u0342', '\u0345']), ('\u1fa0', ['\u03c9', '\u0313', '\u0345']),
   ('\u1fa1', ['\u03c9', '\u0314', '\u0345']), ('\u1fa2', ['\u03c9', '\u0313', '\u0300', '\u0345']),
   ('\u1fa3', ['\u03c9', '\u0314', '\u0300', '\u0345']), ('\u1fa4', ['\u03c9', '\u0313', '\u0301', '\u0345']),
   ('\u1fa5', ['\u03c9', '\u0314', '\u0301', '\u0345']), ('\u1fa6', ['\u03c9', '\u0313', '\u0342', '\u0345']),
   ('\u1fa7', ['\u03c9', '\u0314', '\u0342', '\u0345']), ('\u1fa8', ['\u03a9', '\u0313', '\u0345']),
   ('\u1fa9', ['\u03a9', '\u0314', '\u0345']), ('\u1faa', ['\u03a9', '\u0313', '\u0300', '\u0345']),
   ('\u1fab', ['\u03a9', '\u0314', '\u0300', '\u0345']), ('\u1fac', ['\u03a9', '\u0313', '\u0301', '\u0345']),
   ('\u1fad', ['\u03a9', '\u0314', '\u0301', '\u0345']), ('\u1fae', ['\u03a9', '\u0313', '\u0342', '\u0345']),
   ('\u1faf', ['\u03a9', '\u0314', '\u0342', '\u0345']), ('\u1fb0', ['\u03b1', '\u0306']),
   ('\u1fb1', ['\u03b1', '\u0304']), ('\u1fb2', ['\u03b1', '\u0300', '\u0345']),
   ('\u1fb3', ['\u03b1', '\u0345']), ('\u1fb4', ['\u03b1', '\u0301', '\u0345']),
   ('\u1fb6', ['\u03b1', '\u0342']), ('\u1fb7', ['\u03b1', '\u0342', '\u0345']),
   ('\u1fb8', ['\u0391', '\u0306']), ('\u1fb9', ['\u0391', '\u0304']),
   ('\u1fba', ['\u0391', '\u0300']), ('\u1fbb', ['\u0391', '\u0301']),
   ('\u1fbc', ['\u0391', '\u0345']), ('\u1fbd', ['\u0020', '\u0313']),
   ('\u1fbe', ['\u03b9']), ('\u1fbf', ['\u0020', '\u0313']),
   ('\u1fc0', ['\u0020', '\u0342']), ('\u1fc1', ['\u0020', '\u0308', '\u0342']),
   ('\u1fc2', ['\u03b7', '\u0300', '\u0345']), ('\u1fc3', ['\u03b7', '\u0345']),
   ('\u1fc4', ['\u03b7', '\u0301', '\u0345']), ('\u1fc6', ['\u03b7', '\u0342']),
   ('\u1fc7', ['\u03b7', '\u0342', '\u0345']), ('\u1fc8', ['\u0395', '\u0300']),
   ('\u1fc9', ['\u0395', '\u0301']), ('\u1fca', ['\u0397', '\u0300']),
   ('\u1fcb', ['\u0397', '\u0301']), ('\u1fcc', ['\u0397', '\u0345']),
   ('\u1fcd', ['\u0020', '\u0313', '\u0300']), ('\u1fce', ['\u0020', '\u0313', '\u0301']),
   ('\u1fcf', ['\u0020', '\u0313', '\u0342']), ('\u1fd0', ['\u03b9', '\u0306']),
   ('\u1fd1', ['\u03b9', '\u0304']), ('\u1fd2', ['\u03b9', '\u0308', '\u0300']),
   ('\u1fd3', ['\u03b9', '\u0308', '\u0301']), ('\u1fd6', ['\u03b9', '\u0342']),
   ('\u1fd7', ['\u03b9', '\u0308', '\u0342']), ('\u1fd8', ['\u0399', '\u0306']),
   ('\u1fd9', ['\u0399', '\u0304']), ('\u1fda', ['\u0399', '\u0300']),
   ('\u1fdb', ['\u0399', '\u0301']), ('\u1fdd', ['\u0020', '\u0314', '\u0300']),
   ('\u1fde', ['\u0020', '\u0314', '\u0301']), ('\u1fdf', ['\u0020', '\u0314', '\u0342']),
   ('\u1fe0', ['\u03c5', '\u0306']), ('\u1fe1', ['\u03c5', '\u0304']),
   ('\u1fe2', ['\u03c5', '\u0308', '\u0300']), ('\u1fe3', ['\u03c5', '\u0308', '\u0301']),
   ('\u1fe4', ['\u03c1', '\u0313']), ('\u1fe5', ['\u03c1', '\u0314']),
   ('\u1fe6', ['\u03c5', '\u0342']), ('\u1fe7', ['\u03c5', '\u0308', '\u0342']),
   ('\u1fe8', ['\u03a5', '\u0306']), ('\u1fe9', ['\u03a5', '\u0304']),
   ('\u1fea', ['\u03a5', '\u0300']), ('\u1feb', ['\u03a5', '\u0301']),
   ('\u1fec', ['\u03a1', '\u0314']), ('\u1fed', ['\u0020', '\u0308', '\u0300']),
   ('\u1fee', ['\u0020', '\u0308', '\u0301']), ('\u1fef', ['\u0060']),
   ('\u1ff2', ['\u03c9', '\u0300', '\u0345']), ('\u1ff3', ['\u03c9', '\u0345']),
   ('\u1ff4', ['\u03c9', '\u0301', '\u0345']), ('\u1ff6', ['\u03c9', '\u0342']),
   ('\u1ff7', ['\u03c9', '\u0342', '\u0345']), ('\u1ff8', ['\u039f', '\u0300']),
   ('\u1ff9', ['\u039f', '\u0301']), ('\u1ffa', ['\u03a9', '\u0300']),
   ('\u1ffb', ['\u03a9', '\u0301']), ('\u1ffc', ['\u03a9', '\u0345']),
   ('\u1ffd', ['\u0020', '\u0301']), ('\u1ffe', ['\u0020', '\u0314']),
   ('\u00b3', ['\u0033'])]

/-- Primary canonical composition pairs whose composite lies in the Greek or
Greek-Extended block, from UnicodeData (composition exclusions respected). -/
def pairTable : List ((Char × Char) × Char) :=
  [(('\u00a8', '\u0301'), '\u0385'), (('\u0391', '\u0301'), '\u0386'),
   (('\u0395', '\u0301'), '\u0388'), (('\u0397', '\u0301'), '\u0389'),
   (('\u0399', '\u0301'), '\u038a'), (('\u039f', '\u0301'), '\u038c'),
   (('\u03a5', '\u0301'), '\u038e'), (('\u03a9', '\u0301'), '\u038f'),
   (('\u03ca', '\u0301'), '\u0390'), (('\u0399', '\u0308'), '\u03aa'),
   (('\u03a5', '\u0308'), '\u03ab'), (('\u03b1', '\u0301'), '\u03ac'),
   (('\u03b5', '\u0301'), '\u03ad'), (('\u03b7', '\u0301'), '\u03ae'),
   (('\u03b9', '\u0301'), '\u03af'), (('\u03cb', '\u0301'), '\u03b0'),
   (('\u03b9', '\u0308'), '\u03ca'), (('\u03c5', '\u0308'), '\u03cb'),
   (('\u03bf', '\u0301'), '\u03cc'), (('\u03c5', '\u0301'), '\u03cd'),
   (('\u03c9', '\u0301'), '\u03ce'), (('\u03d2', '\u0301'), '\u03d3'),
   (('\u03d2', '\u0308'), '\u03d4'), (('\u03b1', '\u0313'), '\u1f00'),
   (('\u03b1', '\u0314'), '\u1f01'), (('\u1f00', '\u0300'), '\u1f02'),
   (('\u1f01', '\u0300'), '\u1f03'), (('\u1f00', '\u0301'), '\u1f04'),
   (('\u1f01', '\u0301'), '\u1f05'), (('\u1f00', '\u0342'), '\u1f06'),
   (('\u1f01', '\u0342'), '\u1f07'), (('\u0391', '\u0313'), '\u1f08'),
   (('\u0391', '\u0314'), '\u1f09'), (('\u1f08', '\u0300'), '\u1f0a'),
   (('\u1f09', '\u0300'), '\u1f0b'), (('\u1f08', '\u0301'), '\u1f0c'),
   (('\u1f09', '\u0301'), '\u1f0d'), (('\u1f08', '\u0342'), '\u1f0e'),
   (('\u1f09', '\u0342'), '\u1f0f'), (('\u03b5', '\u0313'), '\u1f10'),
   (('\u03b5', '\u0314'), '\u1f11'), (('\u1f10', '\u0300'), '\u1f12'),
   (('\u1f11', '\u0300'), '\u1f13'), (('\u1f10', '\u0301'), '\u1f14'),
   (('\u1f11', '\u0301'), '\u1f15'), (('\u0395', '\u0313'), '\u1f18'),
   (('\u0395', '\u0314'), '\u1f19'), (('\u1f18', '\u0300'), '\u1f1a'),
   (('\u1f19', '\u0300'), '\u1f1b'), (('\u1f18', '\u0301'), '\u1f1c'),
   (('\u1f19', '\u0301'), '\u1f1d'), (('\u03b7', '\u0313'), '\u1f20'),
   (('\u03b7', '\u0314'), '\u1f21'), (('\u1f20', '\u0300'), '\u1f22'),
   (('\u1f21', '\u0300'), '\u1f23'), (('\u1f20', '\u0301'), '\u1f24'),
   (('\u1f21', '\u0301'), '\u1f25'), (('\u1f20', '\u0342'), '\u1f26'),
   (('\u1f21', '\u0342'), '\u1f27'), (('\u0397', '\u0313'), '\u1f28'),
   (('\u0397', '\u0314'), '\u1f29'), (('\u1f28', '\u0300'), '\u1f2a'),
   (('\u1f29', '\u0300'), '\u1f2b'), (('\u1f28', '\u0301'), '\u1f2c'),
   (('\u1f29', '\u0301'), '\u1f2d'), (('\u1f28', '\u0342'), '\u1f2e'),
   (('\u1f29', '\u0342'), '\u1f2f'), (('\u03b9', '\u0313'), '\u1f30'),
   (('\u03b9', '\u0314'), '\u1f31'), (('\u1f30', '\u0300'), '\u1f32'),
   (('\u1f31', '\u0300'), '\u1f33'), (('\u1f30', '\u0301'), '\u1f34'),
   (('\u1f31', '\u0301'), '\u1f35'), (('\u1f30', '\u0342'), '\u1f36'),
   (('\u1f31', '\u0342'), '\u1f37'), (('\u0399', '\u0313'), '\u1f38'),
   (('\u0399', '\u0314'), '\u1f39'), (('\u1f38', '\u0300'), '\u1f3a'),
   (('\u1f39', '\u0300'), '\u1f3b'), (('\u1f38', '\u0301'), '\u1f3c'),
   (('\u1f39', '\u0301'), '\u1f3d'), (('\u1f38', '\u0342'), '\u1f3e'),
   (('\u1f39', '\u0342'), '\u1f3f'), (('\u03bf', '\u0313'), '\u1f40'),
   (('\u03bf', '\u0314'), '\u1f41'), (('\u1f40', '\u0300'), '\u1f42'),
   (('\u1f41', '\u0300'), '\u1f43'), (('\u1f40', '\u0301'), '\u1f44'),
   (('\u1f41', '\u0301'), '\u1f45'), (('\u039f', '\u0313'), '\u1f48'),
   (('\u039f', '\u0314'), '\u1f49'), (('\u1f48', '\u0300'), '\u1f4a'),
   (('\u1f49', '\u0300'), '\u1f4b'), (('\u1f48', '\u0301'), '\u1f4c'),
   (('\u1f49', '\u0301'), '\u1f4d'), (('\u03c5', '\u0313'), '\u1f50'),
   (('\u03c5', '\u0314'), '\u1f51'), (('\u1f50', '\u0300'), '\u1f52'),
   (('\u1f51', '\u0300'), '\u1f53'), (('\u1f50', '\u0301'), '\u1f54'),
   (('\u1f51', '\u0301'), '\u1f55'), (('\u1f50', '\u0342'), '\u1f56'),
   (('\u1f51', '\u0342'), '\u1f57'), (('\u03a5', '\u0314'), '\u1f59'),
   (('\u1f59', '\u0300'), '\u1f5b'), (('\u1f59', '\u0301'), '\u1f5d'),
   (('\u1f59', '\u0342'), '\u1f5f'), (('\u03c9', '\u0313'), '\u1f60'),
   (('\u03c9', '\u0314'), '\u1f61'), (('\u1f60', '\u0300'), '\u1f62'),
   (('\u1f61', '\u0300'), '\u1f63'), (('\u1f60', '\u0301'), '\u1f64'),
   (('\u1f61', '\u0301'), '\u1f65'), (('\u1f60', '\u0342'), '\u1f66'),
   (('\u1f61', '\u0342'), '\u1f67'), (('\u03a9', '\u0313'), '\u1f68'),
   (('\u03a9', '\u0314'), '\u1f69'), (('\u1f68', '\u0300'), '\u1f6a'),
   (('\u1f69', '\u0300'), '\u1f6b'), (('\u1f68', '\u0301'), '\u1f6c'),
   (('\u1f69', '\u0301'), '\u1f6d'), (('\u1f68', '\u0342'), '\u1f6e'),
   (('\u1f69', '\u0342'), '\u1f6f'), (('\u03b1', '\u0300'), '\u1f70'),
   (('\u03b5', '\u0300'), '\u1f72'), (('\u03b7', '\u0300'), '\u1f74'),
   (('\u03b9', '\u0300'), '\u1f76'), (('\u03bf', '\u0300'), '\u1f78'),
   (('\u03c5', '\u0300'), '\u1f7a'), (('\u03c9', '\u0300'), '\u1f7c'),
   (('\u1f00', '\u0345'), '\u1f80'), (('\u1f01', '\u0345'), '\u1f81'),
   (('\u1f02', '\u0345'), '\u1f82'), (('\u1f03', '\u0345'), '\u1f83'),
   (('\u1f04', '\u0345'), '\u1f84'), (('\u1f05', '\u0345'), '\u1f85'),
   (('\u1f06', '\u0345'), '\u1f86'), (('\u1f07', '\u0345'), '\u1f87'),
   (('\u1f08', '\u0345'), '\u1f88'), (('\u1f09', '\u0345'), '\u1f89'),
   (('\u1f0a', '\u0345'), '\u1f8a'), (('\u1f0b', '\u0345'), '\u1f8b'),
   (('\u1f0c', '\u0345'), '\u1f8c'), (('\u1f0d', '\u0345'), '\u1f8d'),
   (('\u1f0e', '\u0345'), '\u1f8e'), (('\u1f0f', '\u0345'), '\u1f8f'),
   (('\u1f20', '\u0345'), '\u1f90'), (('\u1f21', '\u0345'), '\u1f91'),
   (('\u1f22', '\u0345'), '\u1f92'), (('\u1f23', '\u0345'), '\u1f93'),
   (('\u1f24', '\u0345'), '\u1f94'), (('\u1f25', '\u0345'), '\u1f95'),
   (('\u1f26', '\u0345'), '\u1f96'), (('\u1f27', '\u0345'), '\u1f97'),
   (('\u1f28', '\u0345'), '\u1f98'), (('\u1f29', '\u0345'), '\u1f99'),
   (('\u1f2a', '\u0345'), '\u1f9a'), (('\u1f2b', '\u0345'), '\u1f9b'),
   (('\u1f2c', '\u0345'), '\u1f9c'), (('\u1f2d', '\u0345'), '\u1f9d'),
   (('\u1f2e', '\u0345'), '\u1f9e'), (('\u1f2f', '\u0345'), '\u1f9f'),
   (('\u1f60', '\u0345'), '\u1fa0'), (('\u1f61', '\u0345'), '\u1fa1'),
   (('\u1f62', '\u0345'), '\u1fa2'), (('\u1f63', '\u0345'), '\u1fa3'),
   (('\u1f64', '\u0345'), '\u1fa4'), (('\u1f65', '\u0345'), '\u1fa5'),
   (('\u1f66', '\u0345'), '\u1fa6'), (('\u1f67', '\u0345'), '\u1fa7'),
   (('\u1f68', '\u0345'), '\u1fa8'), (('\u1f69', '\u0345'), '\u1fa9'),
   (('\u1f6a', '\u0345'), '\u1faa'), (('\u1f6b', '\u0345'), '\u1fab'),
   (('\u1f6c', '\u0345'), '\u1fac'), (('\u1f6d', '\u0345'), '\u1fad'),
   (('\u1f6e', '\u0345'), '\u1fae'), (('\u1f6f', '\u0345'), '\u1faf'),
   (('\u03b1', '\u0306'), '\u1fb0'), (('\u03b1', '\u0304'), '\u1fb1'),
   (('\u1f70', '\u0345'), '\u1fb2'), (('\u03b1', '\u0345'), '\u1fb3'),
   (('\u03ac', '\u0345'), '\u1fb4'), (('\u03b1', '\u0342'), '\u1fb6'),
   (('\u1fb6', '\u0345'), '\u1fb7'), (('\u0391', '\u0306'), '\u1fb8'),
   (('\u0391', '\u0304'), '\u1fb9'), (('\u0391', '\u0300'), '\u1fba'),
   (('\u0391', '\u0345'), '\u1fbc'), (('\u00a8', '\u0342'), '\u1fc1'),
   (('\u1f74', '\u0345'), '\u1fc2'), (('\u03b7', '\u0345'), '\u1fc3'),
   (('\u03ae', '\u0345'), '\u1fc4'), (('\u03b7', '\u0342'), '\u1fc6'),
   (('\u1fc6', '\u0345'), '\u1fc7'), (('\u0395', '\u0300'), '\u1fc8'),
   (('\u0397', '\u0300'), '\u1fca'), (('\u0397', '\u0345'), '\u1fcc'),
   (('\u1fbf', '\u0300'), '\u1fcd'), (('\u1fbf', '\u0301'), '\u1fce'),
   (('\u1fbf', '\u0342'), '\u1fcf'), (('\u03b9', '\u0306'), '\u1fd0'),
   (('\u03b9', '\u0304'), '\u1fd1'), (('\u03ca', '\u0300'), '\u1fd2'),
   (('\u03b9', '\u0342'), '\u1fd6'), (('\u03ca', '\u0342'), '\u1fd7'),
   (('\u0399', '\u0306'), '\u1fd8'), (('\u0399', '\u0304'), '\u1fd9'),
   (('\u0399', '\u0300'), '\u1fda'), (('\u1ffe', '\u0300'), '\u1fdd'),
   (('\u1ffe', '\u0301'), '\u1fde'), (('\u1ffe', '\u0342'), '\u1fdf'),
   (('\u03c5', '\u0306'), '\u1fe0'), (('\u03c5', '\u0304'), '\u1fe1'),
   (('\u03cb', '\u0300'), '\u1fe2'), (('\u03c1', '\u0313'), '\u1fe4'),
   (('\u03c1', '\u0314'), '\u1fe5'), (('\u03c5', '\u0342'), '\u1fe6'),
   (('\u03cb', '\u0342'), '\u1fe7'), (('\u03a5', '\u0306'), '\u1fe8'),
   (('\u03a5', '\u0304'), '\u1fe9'), (('\u03a5', '\u0300'), '\u1fea'),
   (('\u03a1', '\u0314'), '\u1fec'), (('\u00a8', '\u0300'), '\u1fed'),
   (('\u1f7c', '\u0345'), '\u1ff2'), (('\u03c9', '\u0345'), '\u1ff3'),
   (('\u03ce', '\u0345'), '\u1ff4'), (('\u03c9', '\u0342'), '\u1ff6'),
   (('\u1ff6', '\u0345'), '\u1ff7'), (('\u039f', '\u0300'), '\u1ff8'),
   (('\u03a9', '\u0300'), '\u1ffa'), (('\u03a9', '\u0345'), '\u1ffc')]

/-- Models `char::is_ascii` of the Rust standard library. -/
def is_ascii (c : Char) : Bool := decide (c.toNat ≤ 127)

/-- Finite-map lookup with identity as default: the uniform shape of the
character tables of this development. -/
def lookupD (T : List (Char × Char)) (c : Char) : Char :=
  match T.find? (fun e => e.1 == c) with
  | some e => e.2
  | none => c

/-- The ASCII capital letters with their lowercase counterparts. -/
def asciiLowerTable : List (Char × Char) :=
  [('A', 'a'), ('B', 'b'), ('C', 'c'), ('D', 'd'), ('E', 'e'), ('F', 'f'), ('G', 'g'), ('H', 'h'), ('I', 'i'), ('J', 'j'), ('K', 'k'), ('L', 'l'), ('M', 'm'), ('N', 'n'), ('O', 'o'), ('P', 'p'), ('Q', 'q'), ('R', 'r'), ('S', 's'), ('T', 't'), ('U', 'u'), ('V', 'v'), ('W', 'w'), ('X', 'x'), ('Y', 'y'), ('Z', 'z')]

/-- The ASCII small letters with their capital counterparts. -/
def asciiUpperTable : List (Char × Char) :=
  [('a', 'A'), ('b', 'B'), ('c', 'C'), ('d', 'D'), ('e', 'E'), ('f', 'F'), ('g', 'G'), ('h', 'H'), ('i', 'I'), ('j', 'J'), ('k', 'K'), ('l', 'L'), ('m', 'M'), ('n', 'N'), ('o', 'O'), ('p', 'P'), ('q', 'Q'), ('r', 'R'), ('s', 'S'), ('t', 'T'), ('u', 'U'), ('v', 'V'), ('w', 'W'), ('x', 'X'), ('y', 'Y'), ('z', 'Z')]

/-- Models `str::to_lowercase` of the Rust standard library on the character
domain of this development: ASCII capitals and Greek capitals are lowered
one character at a time, every other character is left unchanged. -/
def lowerChar (c : Char) : Char := lookupD (asciiLowerTable ++ greekLowerTable) c

/-- The `input.into().to_lowercase()` step of `converter::convert`. -/
def to_lowercase (l : Str) : Str := l.map lowerChar

/-- Models `char::is_alphabetic` of the Rust standard library on the character
domain of this development: ASCII letters and the letters of the Greek and
Greek-Extended blocks. -/
def is_alphabetic (c : Char) : Bool :=
  decide (('A' ≤ c ∧ c ≤ 'Z') ∨ ('a' ≤ c ∧ c ≤ 'z') ∨
    (0x370 ≤ c.toNat ∧ c.toNat ≤ 0x3FF) ∨ (0x1F00 ≤ c.toNat ∧ c.toNat ≤ 0x1FFF))

/-- Models `char::to_ascii_uppercase` of the Rust standard library. -/
def to_ascii_uppercase (c : Char) : Char := lookupD asciiUpperTable c

/-- The ASCII letters, i.e. the character class `[A-Za-z]` of the regex of
`converter::find_upper`. -/
def asciiLetters : Str :=
  ['A', 'B', 'C', 'D', 'E', 'F', 'G', 'H', 'I', 'J', 'K', 'L', 'M', 'N', 'O', 'P', 'Q', 'R', 'S', 'T', 'U', 'V', 'W', 'X', 'Y', 'Z', 'a', 'b', 'c', 'd', 'e', 'f', 'g', 'h', 'i', 'j', 'k', 'l', 'm', 'n', 'o', 'p', 'q', 'r', 's', 't', 'u', 'v', 'w', 'x', 'y', 'z']

/-- True exactly on the character class `[A-Za-z]`. -/
def isAsciiLetter (c : Char) : Bool := asciiLetters.contains c

/-- The change applied to the follower of a `'*'` by the marking loop of
`converter::find_upper`. -/
def markChar (c : Char) : Char := if is_alphabetic c then to_ascii_uppercase c else c

/-- The marking loop of `converter::find_upper`: every `'*'` whose follower is
alphabetic has that follower raised with `to_ascii_uppercase`.  The Rust loop
reads `ascii_chars[i + 1]` whenever `ascii_chars[i]` is `'*'`; when the `'*'`
is the final character this indexing panics, modelled by `none`.  The loop
advances one position at a time, so a `'*'` directly after another `'*'` is
examined as well. -/
def markStars : Str → Option Str
  | [] => some []
  | [c] => if c = '*' then none else some [c]
  | c :: d :: rest =>
    if c = '*' then
      if d = '*' then (markStars (d :: rest)).map (fun tl => '*' :: tl)
      else (markStars rest).map (fun tl => '*' :: markChar d :: tl)
    else (markStars (d :: rest)).map (fun tl => c :: tl)

/-- The stripping pass of `converter::find_upper`: the regex `\*([A-Za-z])` is
replaced by `$1`, scanning left to right over non-overlapping matches. -/
def stripStars : Str → Str
  | [] => []
  | [c] => [c]
  | c :: d :: rest =>
    if c = '*' then
      if isAsciiLetter d then d :: stripStars rest else '*' :: stripStars (d :: rest)
    else c :: stripStars (d :: rest)

/-- Models `converter::find_upper`; `none` when the Rust code panics. -/
def find_upper (l : Str) : Option Str := (markStars l).map stripStars

/-- The character class `[\\/=]` of the regex of `converter::reorder_diacritics`. -/
def isAccent (c : Char) : Bool := decide (c = '\\' ∨ c = '/' ∨ c = '=')

/-- The character class `[()\+]` of the regex of `converter::reorder_diacritics`. -/
def isBreath (c : Char) : Bool := decide (c = '(' ∨ c = ')' ∨ c = '+')

/-- One match attempt of the regex `(\|*)([\\/=])(\|*)([()\+])` at the head of
the list: a greedy run of pipes, one accent, a greedy run of pipes, one
breathing or diaeresis mark.  On success it returns the replacement
`$4$2$1$3` together with the unconsumed suffix. -/
def reorderMatchAt (l : Str) : Option (Str × Str) :=
  let p1 := l.takeWhile (fun c => decide (c = '|'))
  match l.dropWhile (fun c => decide (c = '|')) with
  | a :: r2 =>
    if isAccent a then
      let p3 := r2.takeWhile (fun c => decide (c = '|'))
      match r2.dropWhile (fun c => decide (c = '|')) with
      | b :: r4 => if isBreath b then some (b :: a :: (p1 ++ p3), r4) else none
      | [] => none
    else none
  | [] => none

/-- Left-to-right scan of `Regex::replace_all` for the reordering regex: at
each position the leftmost match is replaced and scanning resumes after it.
The fuel argument only serves termination; `reorder_diacritics` supplies
enough for the whole list. -/
def reorderF : Nat → Str → Str
  | 0, l => l
  | _ + 1, [] => []
  | fuel + 1, c :: rest =>
    match reorderMatchAt (c :: rest) with
    | some (m, r) => m ++ reorderF fuel r
    | none => c :: reorderF fuel rest

/-- Models `converter::reorder_diacritics`. -/
def reorder_diacritics (l : Str) : Str := reorderF l.length l

/-- Models `str::replace` for a single-character pattern with a
single-character replacement. -/
def replace1 (p u : Char) (l : Str) : Str := l.map (fun c => if c = p then u else c)

/-- Models `str::replace` for a two-character pattern with a single-character
replacement: the left-to-right scan over non-overlapping occurrences. -/
def replace2 (p q u : Char) : Str → Str
  | [] => []
  | [c] => [c]
  | c :: d :: rest =>
    if c = p ∧ d = q then u :: replace2 p q u rest else c :: replace2 p q u (d :: rest)

/-- Models `str::replace` for a three-character pattern with a single-character
replacement: the left-to-right scan over non-overlapping occurrences. -/
def replace3 (p q r u : Char) : Str → Str
  | [] => []
  | [c] => [c]
  | [c, d] => [c, d]
  | c :: d :: e :: rest =>
    if c = p ∧ d = q ∧ e = r then u :: replace3 p q r u rest
    else c :: replace3 p q r u (d :: e :: rest)

/-- One `.replace` rule of `converter::ascii_to_unicode`: a pattern of one,
two or three characters together with its single-character replacement. -/
inductive Rule where
  | one : Char → Char → Rule
  | two : Char → Char → Char → Rule
  | three : Char → Char → Char → Char → Rule
deriving DecidableEq

/-- Applies one rule the way `str::replace` does. -/
def applyRule : Rule → Str → Str
  | .one p u, l => replace1 p u l
  | .two p q u, l => replace2 p q u l
  | .three p q r u, l => replace3 p q r u l

/-- Applies a chain of `.replace` calls, first rule first. -/
def applyRules : List Rule → Str → Str
  | [], l => l
  | r :: rs, l => applyRules rs (applyRule r l)

/-- The `.replace` chain of `converter::ascii_to_unicode`, in source order:
the seven diacritic marks, the letters, the archaic-letter tokens, the Greek
question mark and the middle dot. -/
def convRules : List Rule :=
  [.one ')' '̓', .one '(' '̔', .one '/' '́', .one '=' '͂',
   .one '\\' '̀', .one '+' '̈', .one '|' 'ͅ',
   .one 'A' 'Α', .one 'a' 'α', .one 'B' 'Β', .one 'b' 'β',
   .one 'C' 'Ξ', .one 'c' 'ξ', .one 'D' 'Δ', .one 'd' 'δ',
   .one 'E' 'Ε', .one 'e' 'ε', .one 'F' 'Φ', .one 'f' 'φ',
   .one 'G' 'Γ', .one 'g' 'γ', .one 'H' 'Η', .one 'h' 'η',
   .one 'I' 'Ι', .one 'i' 'ι', .one 'K' 'Κ', .one 'k' 'κ',
   .one 'L' 'Λ', .one 'l' 'λ', .one 'M' 'Μ', .one 'm' 'μ',
   .one 'N' 'Ν', .one 'n' 'ν', .one 'O' 'Ο', .one 'o' 'ο',
   .one 'P' 'Π', .one 'p' 'π', .one 'Q' 'Θ', .one 'q' 'θ',
   .one 'R' 'Ρ', .one 'r' 'ρ', .one 'S' 'Σ', .one 's' 'σ',
   .one 'T' 'Τ', .one 't' 'τ', .one 'U' 'Υ', .one 'u' 'υ',
   .one 'V' 'Ϝ', .one 'v' 'ϝ', .one 'W' 'Ω', .one 'w' 'ω',
   .one 'X' 'Χ', .one 'x' 'χ', .one 'Y' 'Ψ', .one 'y' 'ψ',
   .one 'Z' 'Ζ', .one 'z' 'ζ',
   .three '*' '#' '1' 'Ϟ', .two '#' '1' 'ϟ',
   .three '*' '#' '2' 'Ϛ', .two '#' '2' 'ϛ',
   .three '*' '#' '3' 'Ϙ', .two '#' '3' 'ϙ',
   .three '*' '#' '5' 'Ϡ', .two '#' '5' 'ϡ',
   .one ';' '³', .one ':' '·']

/-- Models `converter::ascii_to_unicode`. -/
def ascii_to_unicode (l : Str) : Str := applyRules convRules l

/-- The character class `[2 .,·;’‐—\n]` of the final-sigma regex of
`converter::sigma_handler`. -/
def sigmaClass : Str :=
  ['2', ' ', '.', ',', '·', ';', '’', '‐', '—', '\n']

/-- The `replace_all` of the regex `σ([2 .,·;’‐—\n])` with `ς$1`: a medial
sigma directly before a word-boundary character becomes final. -/
def sigmaFinalPass : Str → Str
  | [] => []
  | [c] => [c]
  | c :: d :: rest =>
    if c = 'σ' ∧ sigmaClass.contains d then 'ς' :: d :: sigmaFinalPass rest
    else c :: sigmaFinalPass (d :: rest)

/-- The `replace_all` of the regex `σ$` with `ς`: a medial sigma at the very
end of the string becomes final. -/
def sigmaEnd : Str → Str
  | [] => []
  | [c] => if c = 'σ' then ['ς'] else [c]
  | c :: d :: rest => c :: sigmaEnd (d :: rest)

/-- Models `converter::sigma_handler`: the two final-sigma regex passes
followed by the literal `.replace` calls on `"s1"`, `"s3"` and `"S3"`. -/
def sigma_handler (l : Str) : Str :=
  replace2 'S' '3' 'Ϲ'
    (replace2 's' '3' 'ϲ'
      (replace2 's' '1' 'ς' (sigmaEnd (sigmaFinalPass l))))

/-- Canonical combining class, from `cccTable`. -/
def ccc (c : Char) : Nat :=
  match cccTable.find? (fun e => e.1 == c) with
  | some e => e.2
  | none => 0

/-- Compatibility decomposition of one character, from `kdecompTable`;
NFKD-stable characters decompose to themselves. -/
def kdecomp (c : Char) : Str :=
  match kdecompTable.find? (fun e => e.1 == c) with
  | some e => e.2
  | none => [c]

/-- Primary canonical composition of a pair, from `pairTable`. -/
def composePair (a b : Char) : Option Char :=
  (pairTable.find? (fun e => e.1.1 == a && e.1.2 == b)).map (fun e => e.2)

/-- Stable insertion of one combining mark into the already-ordered run that
follows it, for the canonical ordering algorithm. -/
def insertMark (c : Char) : Str → Str
  | [] => [c]
  | d :: ds => if 0 < ccc d ∧ ccc d < ccc c then d :: insertMark c ds else c :: d :: ds

/-- The canonical ordering algorithm of Unicode normalization: every maximal
run of characters of non-zero combining class is sorted stably by class. -/
def canonReorder : Str → Str
  | [] => []
  | c :: rest =>
    if ccc c = 0 then c :: canonReorder rest else insertMark c (canonReorder rest)

/-- The canonical composition algorithm of Unicode normalization, walking the
marks that follow the current starter `s`; `pend` holds the marks that did
not compose (in order).  A mark is blocked when a previous uncombined mark
has a combining class at least as large. -/
def composeRun (s : Char) (pend : Str) : Str → Str
  | [] => s :: pend
  | c :: rest =>
    if ccc c = 0 then
      if pend = [] then
        match composePair s c with
        | some d => composeRun d [] rest
        | none => s :: composeRun c [] rest
      else (s :: pend) ++ composeRun c [] rest
    else
      if (match pend.getLast? with
          | some b => decide (ccc b < ccc c)
          | none => true) then
        match composePair s c with
        | some d => composeRun d pend rest
        | none => composeRun s (pend ++ [c]) rest
      else composeRun s (pend ++ [c]) rest

/-- Canonical composition over a whole list: characters before the first
starter pass through unchanged. -/
def canonCompose : Str → Str
  | [] => []
  | c :: rest => if ccc c = 0 then composeRun c [] rest else c :: canonCompose rest

/-- Models `converter::normalize_unicode`, the NFKC normalization of the
unicode_normalization crate, on the character domain of this development:
full compatibility decomposition, canonical reordering, canonical
composition. -/
def normalize_unicode (l : Str) : Str := canonCompose (canonReorder (l.flatMap kdecomp))

/-- Models `converter::convert`, the full pipeline: lowercasing, `find_upper`,
`reorder_diacritics`, `ascii_to_unicode`, `sigma_handler`,
`normalize_unicode`.  The value is `none` exactly when the Rust code
panics. -/
def convert (input : Str) : Option Str :=
  (find_upper (to_lowercase input)).map
    (fun o => normalize_unicode (sigma_handler (ascii_to_unicode (reorder_diacritics o))))

/-- Models `validator::ValidationError`.  The first three constructors are the
variants of the enum of src/betacode/src/lib.rs.  The fourth is modelled from
the spec: the CLI of src/cli/src/main.rs matches a `MixedCaseNotation`
variant (both case conventions detected in one input) that belongs to the
library revision it is built against, which is not under src/. -/
inductive ValidationError where
  | NotASCII : List Char → ValidationError
  | InvalidChars : List Char → ValidationError
  | InvalidDiacriticOrder : List Str → ValidationError
  | MixedCaseNotation : ValidationError
deriving DecidableEq

open ValidationError

/-- Models `Vec::dedup` of the Rust standard library: consecutive equal
elements collapse to their first occurrence. -/
def rustDedup : List Char → List Char
  | c :: d :: rest =>
    if c = d then rustDedup (d :: rest) else c :: rustDedup (d :: rest)
  | l => l

/-- Models `validator::check_ascii`. -/
def check_ascii (l : Str) : Except ValidationError Unit :=
  if l.all is_ascii then .ok ()
  else .error ( NotASCII (rustDedup (l.filter (fun c => ! is_ascii c))))

/-- The character class `[()/\\+]` that may follow a pipe in the validator
regex. -/
def pipeFollow : Str := ['(', ')', '/', '\\', '+']

/-- The character class `[qrtypsdfgklmnbcxz ]` of the validator regex: the
consonants and the space. -/
def consSpace : Str :=
  ['q', 'r', 't', 'y', 'p', 's', 'd', 'f', 'g', 'k', 'l', 'm', 'n', 'b', 'c', 'x', 'z', ' ']

/-- The character class `[()\\/+|]` that may follow a consonant or space in
the validator regex. -/
def diacSet : Str := ['(', ')', '\\', '/', '+', '|']

/-- One match attempt of the validator regex
`\|[()/\\+]+|[\\/][()+]|[qrtypsdfgklmnbcxz ][()\\/+|]+` at the head of the
list.  The three alternatives begin with pairwise disjoint characters, so at
most one can match; each greedy `+` takes the maximal run. -/
def diacMatchAt (l : Str) : Option (Str × Str) :=
  match l with
  | [] => none
  | [_] => none
  | c :: d :: rest =>
    if c = '|' then
      match (d :: rest).takeWhile (fun x => pipeFollow.contains x) with
      | [] => none
      | run => some ('|' :: run, (d :: rest).dropWhile (fun x => pipeFollow.contains x))
    else if (c = '\\' ∨ c = '/') ∧ (d = '(' ∨ d = ')' ∨ d = '+') then some ([c, d], rest)
    else if consSpace.contains c then
      match (d :: rest).takeWhile (fun x => diacSet.contains x) with
      | [] => none
      | run => some (c :: run, (d :: rest).dropWhile (fun x => diacSet.contains x))
    else none

/-- The `find_iter` scan of the validator regex: leftmost non-overlapping
matches, collected in order.  The fuel argument only serves termination. -/
def diacScanF : Nat → Str → List Str
  | 0, _ => []
  | _ + 1, [] => []
  | fuel + 1, l =>
    match diacMatchAt l with
    | some (m, r) => m :: diacScanF fuel r
    | none => diacScanF fuel l.tail

/-- Models `validator::diacritics_ordered`. -/
def diacritics_ordered (l : Str) : Except ValidationError Unit :=
  match diacScanF l.length l with
  | [] => .ok ()
  | ms => .error ( InvalidDiacriticOrder ms)

/-- The `valid_chars` vector of `validator::standard_characteres`, in source
order. -/
def valid_chars : Str :=
  ['A', 'B', 'C', 'D', 'E', 'F', 'G', 'H', 'I', 'K', 'L', 'M', 'N', 'O', 'P', 'Q', 'R',
   'S', 'T', 'U', 'V', 'W', 'X', 'Y', 'Z', 'a', 'b', 'c', 'd', 'e', 'f', 'g', 'h', 'i',
   'k', 'l', 'm', 'n', 'o', 'p', 'q', 'r', 's', 't', 'u', 'v', 'w', 'x', 'y', 'z', '*',
   '#', '|', ')', '(', '/', '\\', '.', ';', ':', '1', '2', '3', ',', '\'', '+', '=', ' ',
   '\n']

/-- Models `validator::standard_characteres`. -/
def standard_characteres (l : Str) : Except ValidationError Unit :=
  if l.all (fun c => valid_chars.contains c) then .ok ()
  else .error ( InvalidChars (rustDedup (l.filter (fun c => ! valid_chars.contains c))))

/-- Models `validator::validate`: the three checks run in source order with
the `?` operator, short-circuiting on the first failure. -/
def validate (l : Str) : Except ValidationError Unit :=
  match check_ascii l with
  | .error e => .error e
  | .ok () =>
    match diacritics_ordered l with
    | .error e => .error e
    | .ok () => standard_characteres l

/-- Models `convert_line` of src/cli/src/main.rs: validation failures other
than `InvalidDiacriticOrder` and `MixedCaseNotation` are fatal, those two are
recovered by converting anyway.  The outer `Option` records a panic of
`convert`. -/
def convert_line (input : Str) : Option (Except ValidationError Str) :=
  match validate input with
  | .ok () => (convert input).map .ok
  | .error e =>
    match e with
    | InvalidDiacriticOrder _ => (convert input).map .ok
    | MixedCaseNotation => (convert input).map .ok
    | _ => some (.error e)

/-! Generic lemmas about the table lookups and the validator helpers. -/

lemma lookupD_cases (T : List (Char × Char)) (c : Char) :
    lookupD T c = c ∨ ∃ e ∈ T, lookupD T c = e.2 := by
  unfold lookupD
  cases h : T.find? (fun e => e.1 == c) with
  | none => exact .inl rfl
  | some e => exact .inr ⟨e, List.mem_of_find?_eq_some h, rfl⟩

lemma lookupD_ne (T : List (Char × Char)) (c x : Char)
    (hv : ∀ e ∈ T, e.2 ≠ x) (hc : c ≠ x) : lookupD T c ≠ x := by
  rcases lookupD_cases T c with h | ⟨e, he, h⟩
  · rw [h]; exact hc
  · rw [h]; exact hv e he

lemma lookupD_eq_iff (T : List (Char × Char)) (x : Char)
    (hk : ∀ e ∈ T, e.1 ≠ x) (hv : ∀ e ∈ T, e.2 ≠ x) (c : Char) :
    lookupD T c = x ↔ c = x := by
  constructor
  · intro h
    by_contra hc
    exact lookupD_ne T c x hv hc h
  · intro h
    subst h
    have hnone : T.find? (fun e => e.1 == c) = none := by
      rw [List.find?_eq_none]
      intro e he
      simpa using hk e he
    simp [lookupD, hnone]

lemma count_map_eq (f : Char → Char) (x : Char) (hf : ∀ c, f c = x ↔ c = x) :
    ∀ l : Str, (l.map f).count x = l.count x := by
  intro l
  induction l with
  | nil => rfl
  | cons c t ih =>
    by_cases hc : c = x
    · simp [List.count_cons, hc, (hf x).mpr rfl, ih]
    · have : f c ≠ x := fun h => hc ((hf c).mp h)
      simp [List.count_cons, hc, this, ih]

/-! Lemmas about `rustDedup`. -/

lemma rustDedup_sublist : ∀ l : List Char, List.Sublist (rustDedup l) l := by
  intro l
  induction l with
  | nil => simp [rustDedup]
  | cons c rest ih =>
    cases rest with
    | nil => simp [rustDedup]
    | cons d rest' =>
      rw [rustDedup]
      split
      · exact ih.cons c
      · exact ih.cons₂ c

lemma mem_rustDedup {c : Char} : ∀ {l : List Char}, c ∈ l → c ∈ rustDedup l := by
  intro l
  induction l with
  | nil => simp
  | cons a rest ih =>
    cases rest with
    | nil => simp [rustDedup]
    | cons d rest' =>
      intro h
      rw [rustDedup]
      by_cases had : a = d
      · rw [if_pos had]
        rcases List.mem_cons.mp h with rfl | h2
        · exact ih (by simp [had])
        · exact ih h2
      · rw [if_neg had]
        rcases List.mem_cons.mp h with rfl | h2
        · exact List.mem_cons_self _ _
        · exact List.mem_cons_of_mem _ (ih h2)

lemma rustDedup_head? : ∀ l : List Char, (rustDedup l).head? = l.head? := by
  intro l
  induction l with
  | nil => rfl
  | cons a rest ih =>
    cases rest with
    | nil => rfl
    | cons d rest' =>
      rw [rustDedup]
      by_cases had : a = d
      · rw [if_pos had, ih, had]
        rfl
      · rw [if_neg had]
        rfl

lemma rustDedup_chain' : ∀ l : List Char, List.Chain' (fun a b => a ≠ b) (rustDedup l) := by
  intro l
  induction l with
  | nil => simp [rustDedup]
  | cons a rest ih =>
    cases rest with
    | nil => simp [rustDedup]
    | cons d rest' =>
      rw [rustDedup]
      by_cases had : a = d
      · rw [if_pos had]
        exact ih
      · rw [if_neg had]
        rw [List.chain'_cons']
        refine ⟨?_, ih⟩
        intro y hy
        rw [rustDedup_head? (d :: rest')] at hy
        simp only [List.head?_cons, Option.mem_def, Option.some.injEq] at hy
        rw [← hy]
        exact had

/-! Short-circuit structure of `validate`. -/

lemma validate_of_ascii_error {l : Str} {e : ValidationError}
    (h : check_ascii l = .error e) : validate l = .error e := by
  unfold validate
  rw [h]

lemma validate_of_diac_error {l : Str} {e : ValidationError}
    (h1 : check_ascii l = .ok ()) (h2 : diacritics_ordered l = .error e) :
    validate l = .error e := by
  unfold validate
  rw [h1, h2]

lemma validate_of_checks_ok {l : Str}
    (h1 : check_ascii l = .ok ()) (h2 : diacritics_ordered l = .ok ()) :
    validate l = standard_characteres l := by
  unfold validate
  rw [h1, h2]

/-! Claim theorems, first batch. -/

/-- C1: the claim says `convert` is total on inputs over the accepted Betacode
alphabet, which includes `'*'`.  The code violates it: the one-character
input `"*"` passes the validator, yet `convert` panics, because the marking
loop of `find_upper` indexes `ascii_chars[i + 1]` when it sees the trailing
`'*'`.  This theorem evaluates the model at the failing input. -/
theorem c1_convert_panics_on_trailing_star :
    validate ['*'] = .ok () ∧ convert ['*'] = none := by
  exact ⟨by decide, by decide⟩

/-- C2: the error taxonomy of the library as consumed by the CLI: every
`ValidationError` is one of the four variants `NotASCII`, `InvalidChars`,
`InvalidDiacriticOrder`, `MixedCaseNotation`, and the four variants are
pairwise distinct. -/
theorem c2_error_taxonomy :
    (∀ e : ValidationError,
      (∃ v, e = NotASCII v) ∨ (∃ v, e = InvalidChars v) ∨
      (∃ v, e = InvalidDiacriticOrder v) ∨ e = MixedCaseNotation) ∧
    decide ( NotASCII [] = InvalidChars []) = false ∧
    decide ( NotASCII [] = InvalidDiacriticOrder []) = false ∧
    decide ( NotASCII [] = MixedCaseNotation) = false ∧
    decide ( InvalidChars [] = InvalidDiacriticOrder []) = false ∧
    decide ( InvalidChars [] = MixedCaseNotation) = false ∧
    decide ( InvalidDiacriticOrder [] = MixedCaseNotation) = false := by
  refine ⟨fun e => ?_, by decide, by decide, by decide, by decide, by decide, by decide⟩
  cases e with
  | NotASCII v => exact .inl ⟨v, rfl⟩
  | InvalidChars v => exact .inr (.inl ⟨v, rfl⟩)
  | InvalidDiacriticOrder v => exact .inr (.inr (.inl ⟨v, rfl⟩))
  | MixedCaseNotation => exact .inr (.inr (.inr rfl))

/-- C4: the claim (and the repository's own `special_sigma` test) expects
`convert "s3 *s3 s1α" = "ϲ Ϲ ςα"`.  The code disagrees: `sigma_handler`
replaces the ASCII tokens `"s1"`, `"s3"`, `"S3"` only after
`ascii_to_unicode` has already turned every `s`/`S` into `σ`/`Σ`, so the
marker replacements never fire and the digits pass through. -/
theorem c4_sigma_markers_inert :
    convert ("s3 *s3 s1α".toList) = some ("σ3 Σ3 σ1α".toList) ∧
    decide (("σ3 Σ3 σ1α".toList : Str) = ("ϲ Ϲ ςα".toList : Str)) = false := by
  exact ⟨by decide, by decide⟩

/-- C6: the composed outputs of `convert` on the diacritic examples, and the
invariance of the output under the transposed input order of breathing and
accent. -/
theorem c6_diacritic_order_and_composition :
    convert ("a)".toList) = some ("ἀ".toList) ∧
    convert ("a)/".toList) = some ("ἄ".toList) ∧
    convert ("a)/|".toList) = some ("ᾄ".toList) ∧
    convert ("a)=|".toList) = some ("ᾆ".toList) ∧
    convert ("a/)".toList) = convert ("a)/".toList) := by
  exact ⟨by decide, by decide, by decide, by decide, by decide⟩

/-- C7, counterexample: the claim says the character list carried by a
`NotASCII` error has each offending character exactly once.  `Vec::dedup`
only collapses adjacent duplicates, so on `"αβα"` the reported list carries
`'α'` twice. -/
theorem c7_dedup_counterexample :
    validate ("αβα".toList) = .error ( NotASCII ("αβα".toList)) ∧
    ("αβα".toList).count 'α' = 2 := by
  exact ⟨by decide, by decide⟩

/-- C7, amended: the offender lists of `NotASCII` and `InvalidChars` are
order-preserving sublists of the offending occurrences, contain every
offending character, and carry no two equal characters adjacently; only
adjacent duplicates are collapsed, so a character may be reported more than
once when separated by a different offender. -/
theorem c7_dedup_adjacent (l : Str) :
    (∀ v, check_ascii l = .error ( NotASCII v) →
      List.Sublist v (l.filter (fun c => ! is_ascii c)) ∧
      (∀ c, c ∈ l → is_ascii c = false → c ∈ v) ∧
      List.Chain' (fun a b => a ≠ b) v) ∧
    (∀ v, standard_characteres l = .error ( InvalidChars v) →
      List.Sublist v (l.filter (fun c => ! valid_chars.contains c)) ∧
      (∀ c, c ∈ l → valid_chars.contains c = false → c ∈ v) ∧
      List.Chain' (fun a b => a ≠ b) v) := by
  constructor
  · intro v hv
    have hv' : v = rustDedup (l.filter (fun c => ! is_ascii c)) := by
      by_cases hall : l.all is_ascii
      · rw [check_ascii, if_pos hall] at hv
        exact absurd hv (by simp)
      · rw [check_ascii, if_neg hall] at hv
        simpa using hv.symm
    subst hv'
    refine ⟨rustDedup_sublist _, ?_, rustDedup_chain' _⟩
    intro c hc hna
    exact mem_rustDedup (List.mem_filter.mpr ⟨hc, by simp [hna]⟩)
  · intro v hv
    have hv' : v = rustDedup (l.filter (fun c => ! valid_chars.contains c)) := by
      by_cases hall : l.all (fun c => valid_chars.contains c)
      · rw [standard_characteres, if_pos hall] at hv
        exact absurd hv (by simp)
      · rw [standard_characteres, if_neg hall] at hv
        simpa using hv.symm
    subst hv'
    refine ⟨rustDedup_sublist _, ?_, rustDedup_chain' _⟩
    intro c hc hna
    exact mem_rustDedup (List.mem_filter.mpr ⟨hc, by simpa using hna⟩)

/-- C7, witness for the amended theorem, at the input `"αβα"`. -/
theorem c7_dedup_adjacent_witness :
    List.Sublist ("αβα".toList) (("αβα".toList).filter (fun c => ! is_ascii c)) ∧
    (∀ c, c ∈ ("αβα".toList) → is_ascii c = false → c ∈ ("αβα".toList)) ∧
    List.Chain' (fun a b => a ≠ b) ("αβα".toList) :=
  (c7_dedup_adjacent ("αβα".toList)).1 ("αβα".toList) (by decide)

/-- C8: `validate` runs its three checks in the order ASCII-ness, diacritic
ordering, character-set membership, returns the error of the first failing
check, and succeeds exactly when all three checks pass. -/
theorem c8_validate_order (l : Str) :
    (validate l = .ok () ↔
      check_ascii l = .ok () ∧ diacritics_ordered l = .ok () ∧
        standard_characteres l = .ok ()) ∧
    (∀ e, check_ascii l = .error e → validate l = .error e) ∧
    (∀ e, check_ascii l = .ok () → diacritics_ordered l = .error e →
      validate l = .error e) ∧
    (∀ e, check_ascii l = .ok () → diacritics_ordered l = .ok () →
      standard_characteres l = .error e → validate l = .error e) := by
  refine ⟨?_, ?_, ?_, ?_⟩
  · constructor
    · intro h
      cases h1 : check_ascii l with
      | error e => rw [validate_of_ascii_error h1] at h; exact absurd h (by simp)
      | ok u =>
        cases u
        cases h2 : diacritics_ordered l with
        | error e => rw [validate_of_diac_error h1 h2] at h; exact absurd h (by simp)
        | ok u =>
          cases u
          rw [validate_of_checks_ok h1 h2] at h
          exact ⟨rfl, rfl, h⟩
    · rintro ⟨h1, h2, h3⟩
      rw [validate_of_checks_ok h1 h2]
      exact h3
  · intro e h
    exact validate_of_ascii_error h
  · intro e h1 h2
    exact validate_of_diac_error h1 h2
  · intro e h1 h2 h3
    rw [validate_of_checks_ok h1 h2]
    exact h3

/-- C8, witness: the input `"ç9"` is non-ASCII and also contains the
out-of-alphabet character `'9'`; the first failing check wins, so `validate`
reports `NotASCII`. -/
theorem c8_validate_order_witness :
    validate ("ç9".toList) = .error ( NotASCII ['ç']) :=
  (c8_validate_order ("ç9".toList)).2.1 ( NotASCII ['ç']) (by decide)

/-! Count preservation through the pipeline stages, for claim C9. -/

lemma markChar_eq_iff (x : Char)
    (hk : ∀ e ∈ asciiUpperTable, e.1 ≠ x) (hv : ∀ e ∈ asciiUpperTable, e.2 ≠ x)
    (c : Char) : markChar c = x ↔ c = x := by
  unfold markChar
  split
  · exact lookupD_eq_iff _ x hk hv c
  · exact Iff.rfl

lemma markStars_count (x : Char) (hx : ∀ c, markChar c = x ↔ c = x) :
    ∀ l o, markStars l = some o → o.count x = l.count x := by
  intro l
  induction l using markStars.induct with
  | case1 =>
    intro o h
    simp only [markStars, Option.some.injEq] at h
    subst h
    rfl
  | case2 =>
    intro o h
    simp [markStars] at h
  | case3 c hc =>
    intro o h
    simp only [markStars, if_neg hc, Option.some.injEq] at h
    subst h
    rfl
  | case4 rest ih =>
    intro o h
    rw [markStars, if_pos rfl, if_pos rfl] at h
    cases hms : markStars ('*' :: rest) with
    | none => rw [hms] at h; exact absurd h (by simp)
    | some t =>
      rw [hms, Option.map_some'] at h
      simp only [Option.some.injEq] at h
      subst h
      simp only [List.count_cons, ih t hms]
  | case5 d rest hd ih =>
    intro o h
    rw [markStars, if_pos rfl, if_neg hd] at h
    cases hms : markStars rest with
    | none => rw [hms] at h; exact absurd h (by simp)
    | some t =>
      rw [hms, Option.map_some'] at h
      simp only [Option.some.injEq] at h
      subst h
      have hmcb : (markChar d == x) = (d == x) := by
        by_cases hdx : d = x
        · rw [hdx, (hx x).mpr rfl]
        · have h1 : markChar d ≠ x := fun hh => hdx ((hx d).mp hh)
          rw [show (markChar d == x) = false from beq_eq_false_iff_ne.mpr h1,
            show (d == x) = false from beq_eq_false_iff_ne.mpr hdx]
      simp only [List.count_cons, ih t hms, hmcb]
  | case6 c d rest hc ih =>
    intro o h
    rw [markStars, if_neg hc] at h
    cases hms : markStars (d :: rest) with
    | none => rw [hms] at h; exact absurd h (by simp)
    | some t =>
      rw [hms, Option.map_some'] at h
      simp only [Option.some.injEq] at h
      subst h
      simp only [List.count_cons, ih t hms]

lemma stripStars_count (x : Char) (hx : x ≠ '*') :
    ∀ l, (stripStars l).count x = l.count x := by
  intro l
  induction l using stripStars.induct with
  | case1 => rfl
  | case2 c => rfl
  | case3 d rest hd ih =>
    rw [stripStars, if_pos rfl, if_pos hd]
    have h1 : ¬ (('*' : Char) = x) := fun h => hx h.symm
    simp only [List.count_cons, ih]
    simp [h1]
  | case4 d rest hd ih =>
    rw [stripStars, if_pos rfl, if_neg hd]
    simp only [List.count_cons, ih]
  | case5 c d rest hc ih =>
    rw [stripStars, if_neg hc]
    simp only [List.count_cons, ih]

lemma reorderMatchAt_count {l m r : Str} (h : reorderMatchAt l = some (m, r))
    (x : Char) : (m ++ r).count x = l.count x := by
  unfold reorderMatchAt at h
  split at h
  next a r2 hd =>
    split at h
    next ha =>
      split at h
      next b r4 hd2 =>
        split at h
        next hb =>
          simp only [Option.some.injEq, Prod.mk.injEq] at h
          obtain ⟨hm, hr⟩ := h
          subst hm
          rw [← hr]
          have hl : l.takeWhile (fun c => decide (c = '|')) ++ (a :: r2) = l := by
            rw [← hd]
            exact List.takeWhile_append_dropWhile _ _
          have hr2 : r2.takeWhile (fun c => decide (c = '|')) ++ (b :: r4) = r2 := by
            rw [← hd2]
            exact List.takeWhile_append_dropWhile _ _
          conv_rhs => rw [← hl]
          conv_rhs => rw [← hr2]
          simp only [List.count_append, List.count_cons]
          omega
        next hb => exact absurd h (by simp)
      next hd2 => exact absurd h (by simp)
    next ha => exact absurd h (by simp)
  next hd => exact absurd h (by simp)

lemma reorderF_count (x : Char) : ∀ fuel l, (reorderF fuel l).count x = l.count x := by
  intro fuel
  induction fuel with
  | zero => intro l; rfl
  | succ n ih =>
    intro l
    cases l with
    | nil => rfl
    | cons c rest =>
      rw [reorderF]
      cases hm : reorderMatchAt (c :: rest) with
      | some pr =>
        obtain ⟨m, r⟩ := pr
        have hc := reorderMatchAt_count hm x
        simp only [List.count_append] at hc ⊢
        rw [ih r]
        omega
      | none =>
        simp only [List.count_cons, ih rest]

lemma reorder_count (x : Char) (l : Str) :
    (reorder_diacritics l).count x = l.count x := reorderF_count x l.length l

/-! Count lemmas for the replacement rules. -/

lemma count_replace1_ne {p u x : Char} (hp : x ≠ p) (hu : x ≠ u) (l : Str) :
    (replace1 p u l).count x = l.count x := by
  refine count_map_eq _ x (fun c => ?_) l
  by_cases hc : c = p
  · subst hc
    rw [if_pos rfl]
    exact iff_of_false (fun h => hu h.symm) (fun h => hp h.symm)
  · rw [if_neg hc]

lemma count_replace1_target {p u : Char} (hpu : p ≠ u) (l : Str) :
    (replace1 p u l).count u = l.count u + l.count p := by
  induction l with
  | nil => rfl
  | cons c rest ih =>
    rw [show replace1 p u (c :: rest) = (if c = p then u else c) :: replace1 p u rest from rfl]
    by_cases hc : c = p
    · subst hc
      simp [List.count_cons, ih, Ne.symm hpu]
      omega
    · simp [List.count_cons, ih, hc, Ne.symm hc]
      omega

lemma count_replace1_zero {p u : Char} (hpu : p ≠ u) (l : Str) :
    (replace1 p u l).count p = 0 := by
  induction l with
  | nil => rfl
  | cons c rest ih =>
    rw [show replace1 p u (c :: rest) = (if c = p then u else c) :: replace1 p u rest from rfl]
    by_cases hc : c = p
    · subst hc
      simp [List.count_cons, ih, Ne.symm hpu]
    · simp [List.count_cons, ih, hc, Ne.symm hc]

lemma count_replace2_ne {p q u x : Char} (hp : x ≠ p) (hq : x ≠ q) (hu : x ≠ u) :
    ∀ l, (replace2 p q u l).count x = l.count x := by
  intro l
  induction l using replace2.induct p q u with
  | case1 => rfl
  | case2 c => rfl
  | case3 c d rest hcd ih =>
    obtain ⟨rfl, rfl⟩ := hcd
    rw [replace2, if_pos ⟨rfl, rfl⟩]
    simp only [List.count_cons, ih]
    have h1 : ¬ (u = x) := fun hh => hu hh.symm
    have h2 : ¬ (c = x) := fun hh => hp hh.symm
    have h3 : ¬ (d = x) := fun hh => hq hh.symm
    simp [h1, h2, h3]
  | case4 c d rest hcd ih =>
    rw [replace2, if_neg hcd]
    simp only [List.count_cons, ih]

lemma count_replace3_ne {p q r u x : Char} (hp : x ≠ p) (hq : x ≠ q) (hr : x ≠ r)
    (hu : x ≠ u) : ∀ l, (replace3 p q r u l).count x = l.count x := by
  intro l
  induction l using replace3.induct p q r u with
  | case1 => rfl
  | case2 c => rfl
  | case3 c d => rfl
  | case4 c d e rest hcde ih =>
    obtain ⟨rfl, rfl, rfl⟩ := hcde
    rw [replace3, if_pos ⟨rfl, rfl, rfl⟩]
    simp only [List.count_cons, ih]
    have h1 : ¬ (u = x) := fun hh => hu hh.symm
    have h2 : ¬ (c = x) := fun hh => hp hh.symm
    have h3 : ¬ (d = x) := fun hh => hq hh.symm
    have h4 : ¬ (e = x) := fun hh => hr hh.symm
    simp [h1, h2, h3, h4]
  | case5 c d e rest hcde ih =>
    rw [replace3, if_neg hcde]
    simp only [List.count_cons, ih]

/-- The characters a rule can consume or produce. -/
def ruleChars : Rule → Str
  | .one p u => [p, u]
  | .two p q u => [p, q, u]
  | .three p q r u => [p, q, r, u]

lemma count_applyRule_ne {r : Rule} {x : Char} (hx : x ∉ ruleChars r) (l : Str) :
    (applyRule r l).count x = l.count x := by
  cases r with
  | one p u =>
    simp only [ruleChars, List.mem_cons, not_or] at hx
    exact count_replace1_ne hx.1 hx.2.1 l
  | two p q u =>
    simp only [ruleChars, List.mem_cons, not_or] at hx
    exact count_replace2_ne hx.1 hx.2.1 hx.2.2.1 l
  | three p q r u =>
    simp only [ruleChars, List.mem_cons, not_or] at hx
    exact count_replace3_ne hx.1 hx.2.1 hx.2.2.1 hx.2.2.2.1 l

lemma count_applyRules_ne {rs : List Rule} {x : Char}
    (hx : ∀ r ∈ rs, x ∉ ruleChars r) : ∀ l, (applyRules rs l).count x = l.count x := by
  induction rs with
  | nil => intro l; rfl
  | cons r rs ih =>
    intro l
    rw [applyRules, ih (fun r hr => hx r (List.mem_cons_of_mem _ hr)),
      count_applyRule_ne (hx r (List.mem_cons_self _ _))]

lemma applyRules_append (xs ys : List Rule) :
    ∀ l, applyRules (xs ++ ys) l = applyRules ys (applyRules xs l) := by
  induction xs with
  | nil => intro l; rfl
  | cons r xs ih => intro l; rw [List.cons_append, applyRules, applyRules, ih]

lemma convRules_eq :
    convRules = convRules.take 65 ++ [Rule.one ';' '³', Rule.one ':' '·'] := by rfl

lemma ascii_to_unicode_semicolon (l : Str) :
    (ascii_to_unicode l).count '³' = l.count '³' + l.count ';' := by
  have key : ∀ m : Str, (applyRules [Rule.one ';' '³', Rule.one ':' '·'] m).count '³'
      = m.count '³' + m.count ';' := by
    intro m
    rw [show applyRules [Rule.one ';' '³', Rule.one ':' '·'] m
        = replace1 ':' '·' (replace1 ';' '³' m) from rfl]
    rw [count_replace1_ne (by decide : ('³' : Char) ≠ ':') (by decide : ('³' : Char) ≠ '·'),
      count_replace1_target (by decide : (';' : Char) ≠ '³')]
  unfold ascii_to_unicode
  rw [convRules_eq, applyRules_append, key,
    count_applyRules_ne (by decide) l, count_applyRules_ne (by decide) l]

/-! Count lemmas for the sigma stage. -/

lemma count_sigmaFinalPass (x : Char) (hσ : x ≠ 'σ') (hς : x ≠ 'ς') :
    ∀ l, (sigmaFinalPass l).count x = l.count x := by
  intro l
  induction l using sigmaFinalPass.induct with
  | case1 => rfl
  | case2 c => rfl
  | case3 c d rest hcd ih =>
    obtain ⟨rfl, hd⟩ := hcd
    rw [sigmaFinalPass, if_pos ⟨rfl, hd⟩]
    have h1 : ¬ (('ς' : Char) = x) := fun hh => hς hh.symm
    have h2 : ¬ (('σ' : Char) = x) := fun hh => hσ hh.symm
    simp only [List.count_cons, ih]
    simp [h1, h2]
  | case4 c d rest hcd ih =>
    rw [sigmaFinalPass, if_neg hcd]
    simp only [List.count_cons, ih]

lemma count_sigmaEnd (x : Char) (hσ : x ≠ 'σ') (hς : x ≠ 'ς') :
    ∀ l, (sigmaEnd l).count x = l.count x := by
  intro l
  induction l using sigmaEnd.induct with
  | case1 => rfl
  | case2 =>
    have h1 : ¬ (('ς' : Char) = x) := fun hh => hς hh.symm
    have h2 : ¬ (('σ' : Char) = x) := fun hh => hσ hh.symm
    simp [sigmaEnd, List.count_cons, h1, h2]
  | case3 c hc =>
    simp [sigmaEnd, hc]
  | case4 c d rest ih =>
    simp [sigmaEnd, List.count_cons, ih]

lemma count_sigma_handler_cube (l : Str) :
    (sigma_handler l).count '³' = l.count '³' := by
  unfold sigma_handler
  rw [count_replace2_ne (by decide) (by decide) (by decide),
    count_replace2_ne (by decide) (by decide) (by decide),
    count_replace2_ne (by decide) (by decide) (by decide),
    count_sigmaEnd '³' (by decide) (by decide),
    count_sigmaFinalPass '³' (by decide) (by decide)]

/-! Count and membership lemmas for the normalization stage. -/

lemma count3_flatMap_kdecomp : ∀ l : Str, l.count '³' ≤ (l.flatMap kdecomp).count '3' := by
  intro l
  induction l with
  | nil => simp
  | cons c rest ih =>
    rw [List.flatMap_cons, List.count_append, List.count_cons]
    by_cases hc : c = '³'
    · subst hc
      have : (kdecomp '³').count '3' = 1 := by decide
      simp [this]
      omega
    · simp [hc]
      omega

lemma insertMark_perm (c : Char) : ∀ l : Str, (insertMark c l).Perm (c :: l) := by
  intro l
  induction l with
  | nil => exact List.Perm.refl _
  | cons d ds ih =>
    rw [insertMark]
    split
    · exact (ih.cons d).trans (List.Perm.swap c d ds)
    · exact List.Perm.refl _

lemma canonReorder_perm : ∀ l : Str, (canonReorder l).Perm l := by
  intro l
  induction l with
  | nil => exact List.Perm.refl _
  | cons c rest ih =>
    rw [canonReorder]
    split
    · exact ih.cons c
    · exact (insertMark_perm c _).trans (ih.cons c)

lemma pairTable_no3_fst : ∀ e ∈ pairTable, e.1.1 ≠ '3' := by decide

lemma pairTable_no3_snd : ∀ e ∈ pairTable, e.1.2 ≠ '3' := by decide

lemma pairTable_out_ne37E : ∀ e ∈ pairTable, e.2 ≠ ';' := by decide

lemma composePair_eq_some {a b d : Char} (h : composePair a b = some d) :
    ∃ e ∈ pairTable, e.1.1 = a ∧ e.1.2 = b ∧ e.2 = d := by
  unfold composePair at h
  cases hf : pairTable.find? (fun e => e.1.1 == a && e.1.2 == b) with
  | none => rw [hf] at h; exact absurd h (by simp)
  | some e =>
    rw [hf] at h
    simp only [Option.map_some', Option.some.injEq] at h
    have hm := List.mem_of_find?_eq_some hf
    have hp := List.find?_some hf
    simp only [Bool.and_eq_true, beq_iff_eq] at hp
    exact ⟨e, hm, hp.1, hp.2, h⟩

lemma count3_composeRun :
    ∀ (l : Str) (s : Char) (pend : Str),
      ((s :: pend) ++ l).count '3' ≤ (composeRun s pend l).count '3' := by
  intro l
  induction l with
  | nil =>
    intro s pend
    simp [composeRun]
  | cons c rest ih =>
    intro s pend
    rw [composeRun]
    by_cases h0 : ccc c = 0
    · rw [if_pos h0]
      by_cases hp : pend = []
      · rw [if_pos hp]
        subst hp
        cases hcp : composePair s c with
        | some d =>
          obtain ⟨e, he, he1, _, _⟩ := composePair_eq_some hcp
          have hs3 : ¬ (s = '3') := fun h => pairTable_no3_fst e he (by rw [he1, h])
          obtain ⟨e2, he2, _, he22, _⟩ := composePair_eq_some hcp
          have hc3 : ¬ (c = '3') := fun h => pairTable_no3_snd e2 he2 (by rw [he22, h])
          have hh := ih d []
          simp only [List.count_append, List.count_cons, List.count_nil, beq_iff_eq] at hh ⊢
          simp only [hs3, hc3, if_false]
          omega
        | none =>
          have hh := ih c []
          simp only [List.count_append, List.count_cons, List.count_nil, beq_iff_eq] at hh ⊢
          omega
      · rw [if_neg hp]
        have hh := ih c []
        simp only [List.count_append, List.count_cons, List.count_nil, beq_iff_eq] at hh ⊢
        omega
    · rw [if_neg h0]
      split
      · cases hcp : composePair s c with
        | some d =>
          obtain ⟨e, he, he1, _, _⟩ := composePair_eq_some hcp
          have hs3 : ¬ (s = '3') := fun h => pairTable_no3_fst e he (by rw [he1, h])
          obtain ⟨e2, he2, _, he22, _⟩ := composePair_eq_some hcp
          have hc3 : ¬ (c = '3') := fun h => pairTable_no3_snd e2 he2 (by rw [he22, h])
          have hh := ih d pend
          simp only [List.count_append, List.count_cons, List.count_nil, beq_iff_eq] at hh ⊢
          simp only [hs3, hc3, if_false]
          omega
        | none =>
          have hh := ih s (pend ++ [c])
          simp only [List.count_append, List.count_cons, List.count_nil, beq_iff_eq] at hh ⊢
          omega
      · have hh := ih s (pend ++ [c])
        simp only [List.count_append, List.count_cons, List.count_nil, beq_iff_eq] at hh ⊢
        omega

lemma count3_canonCompose : ∀ l : Str, l.count '3' ≤ (canonCompose l).count '3' := by
  intro l
  induction l with
  | nil => simp
  | cons c rest ih =>
    rw [canonCompose]
    split
    · have := count3_composeRun rest c []
      simpa using this
    · simp only [List.count_cons]
      omega

lemma count3_normalize (l : Str) : l.count '³' ≤ (normalize_unicode l).count '3' := by
  unfold normalize_unicode
  calc l.count '³' ≤ (l.flatMap kdecomp).count '3' := count3_flatMap_kdecomp l
    _ = (canonReorder (l.flatMap kdecomp)).count '3' :=
      ((canonReorder_perm _).count_eq '3').symm
    _ ≤ _ := count3_canonCompose _

/-! Membership lemmas: the Greek question mark U+037E cannot survive
normalization. -/

lemma kdecompTable_no37E : ∀ e ∈ kdecompTable, (';' : Char) ∉ e.2 := by decide

lemma kdecomp_no37E (c : Char) : (';' : Char) ∉ kdecomp c := by
  unfold kdecomp
  cases hf : kdecompTable.find? (fun e => e.1 == c) with
  | some e => exact fun hm => kdecompTable_no37E e (List.mem_of_find?_eq_some hf) hm
  | none =>
    intro hm
    simp only [List.mem_singleton] at hm
    rw [List.find?_eq_none] at hf
    have h1 := hf (';', [';']) (by decide)
    rw [← hm] at h1
    simp at h1

lemma mem_composeRun :
    ∀ (l : Str) (s : Char) (pend : Str) (x : Char),
      x ∈ composeRun s pend l → x ∈ (s :: pend) ++ l ∨ ∃ e ∈ pairTable, e.2 = x := by
  intro l
  induction l with
  | nil =>
    intro s pend x hx
    rw [composeRun] at hx
    exact .inl (by simpa using hx)
  | cons c rest ih =>
    intro s pend x hx
    rw [composeRun] at hx
    by_cases h0 : ccc c = 0
    · rw [if_pos h0] at hx
      by_cases hp : pend = []
      · rw [if_pos hp] at hx
        subst hp
        cases hcp : composePair s c with
        | some d =>
          rw [hcp] at hx
          rcases ih d [] x hx with h | h
          · by_cases hxd : x = d
            · obtain ⟨e, he, _, _, he2⟩ := composePair_eq_some hcp
              exact .inr ⟨e, he, he2.trans hxd.symm⟩
            · left
              simp only [List.mem_append, List.mem_cons, List.not_mem_nil, or_false] at h ⊢
              tauto
          · exact .inr h
        | none =>
          rw [hcp] at hx
          simp only [List.mem_cons] at hx
          rcases hx with rfl | hx
          · exact .inl (by simp)
          · rcases ih c [] x hx with h | h
            · left
              simp only [List.mem_append, List.mem_cons, List.not_mem_nil, or_false] at h ⊢
              tauto
            · exact .inr h
      · rw [if_neg hp] at hx
        rw [List.mem_append] at hx
        rcases hx with hx | hx
        · left
          simp only [List.mem_append, List.mem_cons] at hx ⊢
          tauto
        · rcases ih c [] x hx with h | h
          · left
            simp only [List.mem_append, List.mem_cons, List.not_mem_nil, or_false] at h ⊢
            tauto
          · exact .inr h
    · rw [if_neg h0] at hx
      split at hx
      · cases hcp : composePair s c with
        | some d =>
          rw [hcp] at hx
          rcases ih d pend x hx with h | h
          · by_cases hxd : x = d
            · obtain ⟨e, he, _, _, he2⟩ := composePair_eq_some hcp
              exact .inr ⟨e, he, he2.trans hxd.symm⟩
            · left
              simp only [List.mem_append, List.mem_cons] at h ⊢
              tauto
          · exact .inr h
        | none =>
          rw [hcp] at hx
          rcases ih s (pend ++ [c]) x hx with h | h
          · left
            simp only [List.mem_append, List.mem_cons, List.not_mem_nil, or_false] at h ⊢
            tauto
          · exact .inr h
      · rcases ih s (pend ++ [c]) x hx with h | h
        · left
          simp only [List.mem_append, List.mem_cons, List.not_mem_nil, or_false] at h ⊢
          tauto
        · exact .inr h

lemma mem_canonCompose :
    ∀ (l : Str) (x : Char),
      x ∈ canonCompose l → x ∈ l ∨ ∃ e ∈ pairTable, e.2 = x := by
  intro l
  induction l with
  | nil => intro x hx; exact .inl hx
  | cons c rest ih =>
    intro x hx
    rw [canonCompose] at hx
    split at hx
    · rcases mem_composeRun rest c [] x hx with h | h
      · exact .inl (by simpa using h)
      · exact .inr h
    · simp only [List.mem_cons] at hx ⊢
      rcases hx with rfl | hx
      · tauto
      · rcases ih x hx with h | h
        · tauto
        · exact .inr h

lemma no37E_normalize (l : Str) : (';' : Char) ∉ normalize_unicode l := by
  intro hmem
  unfold normalize_unicode at hmem
  rcases mem_canonCompose _ _ hmem with h | ⟨e, he, he2⟩
  · have h2 := (canonReorder_perm _).mem_iff.mp h
    rw [List.mem_flatMap] at h2
    obtain ⟨c, _, hc⟩ := h2
    exact kdecomp_no37E c hc
  · exact pairTable_out_ne37E e he he2

/-- C9: every `';'` of the input (the Betacode Greek question mark) surfaces
in the output of `convert` as the ASCII digit `'3'` — the substitution step
sends `';'` to U+00B3 and NFKC folds U+00B3 to `'3'` — and the precomposed
Greek question mark U+037E never occurs in the output of `convert`. -/
theorem c9_question_mark_to_three (l out : Str) (h : convert l = some out) :
    l.count ';' ≤ out.count '3' ∧ (';' : Char) ∉ out := by
  unfold convert at h
  rw [Option.map_eq_some'] at h
  obtain ⟨o, ho, rfl⟩ := h
  unfold find_upper at ho
  rw [Option.map_eq_some'] at ho
  obtain ⟨o', ho', rfl⟩ := ho
  refine ⟨?_, no37E_normalize _⟩
  have h1 : (to_lowercase l).count ';' = l.count ';' :=
    count_map_eq _ ';' (lookupD_eq_iff _ ';' (by decide) (by decide)) l
  have h2 : o'.count ';' = (to_lowercase l).count ';' :=
    markStars_count ';' (fun c => markChar_eq_iff ';' (by decide) (by decide) c) _ _ ho'
  have h3 : (stripStars o').count ';' = o'.count ';' := stripStars_count ';' (by decide) o'
  have h4 : (reorder_diacritics (stripStars o')).count ';' = (stripStars o').count ';' :=
    reorder_count ';' _
  have h5 := ascii_to_unicode_semicolon (reorder_diacritics (stripStars o'))
  have h6 := count_sigma_handler_cube (ascii_to_unicode (reorder_diacritics (stripStars o')))
  have h7 := count3_normalize (sigma_handler (ascii_to_unicode (reorder_diacritics (stripStars o'))))
  omega

/-- C9, witness at the one-character input `";"`, whose image is `"3"`. -/
theorem c9_question_mark_to_three_witness :
    ([';'] : Str).count ';' ≤ (['3'] : Str).count '3' ∧ (';' : Char) ∉ (['3'] : Str) :=
  c9_question_mark_to_three [';'] ['3'] (by decide)

/-! The scanner of `diacritics_ordered`: structure of its matches, for
claim C10. -/

lemma pipeFollow_no_space : ∀ c ∈ pipeFollow, c ≠ ' ' := by decide

lemma diacSet_no_space : ∀ c ∈ diacSet, c ≠ ' ' := by decide

lemma diacMatchAt_some {l m r : Str} (h : diacMatchAt l = some (m, r)) :
    l = m ++ r ∧ 2 ≤ m.length ∧ (∀ c ∈ m.tail, c ≠ ' ') ∧
      (∀ mt, m = ' ' :: mt → mt ≠ [] ∧ ∀ c ∈ mt, c ∈ diacSet) := by
  unfold diacMatchAt at h
  split at h
  · exact absurd h (by simp)
  · exact absurd h (by simp)
  next c d rest =>
    by_cases hpipe : c = '|'
    · rw [if_pos hpipe] at h
      cases htw : (d :: rest).takeWhile (fun x => pipeFollow.contains x) with
      | nil =>
        rw [htw] at h
        exact absurd h (by simp)
      | cons x xs =>
        rw [htw] at h
        simp only [Option.some.injEq, Prod.mk.injEq] at h
        obtain ⟨hm, hr⟩ := h
        have hdec : (d :: rest).takeWhile (fun x => pipeFollow.contains x) ++
            (d :: rest).dropWhile (fun x => pipeFollow.contains x) = d :: rest :=
          List.takeWhile_append_dropWhile _ _
        rw [htw, hr] at hdec
        refine ⟨?_, ?_, ?_, ?_⟩
        · rw [← hm, hpipe, ← hdec]
          rfl
        · rw [← hm]
          simp
        · intro y hy
          rw [← hm] at hy
          simp only [List.tail_cons] at hy
          have hmem := List.mem_takeWhile_imp (p := fun x => pipeFollow.contains x)
            (l := d :: rest) (by rw [htw]; exact hy)
          exact pipeFollow_no_space y (by simpa using hmem)
        · intro mt hmt
          rw [← hm] at hmt
          injection hmt with h1 h2
          exact absurd h1 (by decide)
    · rw [if_neg hpipe] at h
      by_cases hacc : (c = '\\' ∨ c = '/') ∧ (d = '(' ∨ d = ')' ∨ d = '+')
      · rw [if_pos hacc] at h
        simp only [Option.some.injEq, Prod.mk.injEq] at h
        obtain ⟨hm, hr⟩ := h
        refine ⟨?_, ?_, ?_, ?_⟩
        · rw [← hm, ← hr]
          rfl
        · rw [← hm]
          simp
        · intro y hy
          rw [← hm] at hy
          simp only [List.tail_cons, List.mem_singleton] at hy
          subst hy
          rcases hacc.2 with h2 | h2 | h2 <;> rw [h2] <;> decide
        · intro mt hmt
          rw [← hm] at hmt
          injection hmt with h1 h2
          rcases hacc.1 with h2 | h2 <;> rw [h2] at h1 <;> exact absurd h1 (by decide)
      · rw [if_neg hacc] at h
        by_cases hcons : consSpace.contains c = true
        · rw [if_pos hcons] at h
          cases htw : (d :: rest).takeWhile (fun x => diacSet.contains x) with
          | nil =>
            rw [htw] at h
            exact absurd h (by simp)
          | cons x xs =>
            rw [htw] at h
            simp only [Option.some.injEq, Prod.mk.injEq] at h
            obtain ⟨hm, hr⟩ := h
            have hdec : (d :: rest).takeWhile (fun x => diacSet.contains x) ++
                (d :: rest).dropWhile (fun x => diacSet.contains x) = d :: rest :=
              List.takeWhile_append_dropWhile _ _
            rw [htw, hr] at hdec
            have hsub : ∀ y ∈ x :: xs, y ∈ diacSet := by
              intro y hy
              have hmem := List.mem_takeWhile_imp (p := fun x => diacSet.contains x)
                (l := d :: rest) (by rw [htw]; exact hy)
              simpa using hmem
            refine ⟨?_, ?_, ?_, ?_⟩
            · rw [← hm, ← hdec]
              rfl
            · rw [← hm]
              simp
            · intro y hy
              rw [← hm] at hy
              simp only [List.tail_cons] at hy
              exact diacSet_no_space y (hsub y hy)
            · intro mt hmt
              rw [← hm] at hmt
              injection hmt with h1 h2
              refine ⟨by rw [← h2]; simp, ?_⟩
              intro y hy
              rw [← h2] at hy
              exact hsub y hy
        · rw [if_neg hcons] at h
          exact absurd h (by simp)

lemma diacMatchAt_space (d : Char) (post : Str) (hd : d ∈ diacSet) :
    ∃ run r, diacMatchAt (' ' :: d :: post) = some (' ' :: run, r) := by
  have hc : diacSet.contains d = true := List.elem_eq_true_of_mem hd
  have hcond : ¬ ((' ' = '\\' ∨ ' ' = '/') ∧ (d = '(' ∨ d = ')' ∨ d = '+')) := by
    rintro ⟨hl, _⟩
    rcases hl with h | h <;> exact absurd h (by decide)
  have htw : (d :: post).takeWhile (fun x => diacSet.contains x) =
      d :: post.takeWhile (fun x => diacSet.contains x) := by
    rw [List.takeWhile_cons, if_pos hc]
  refine ⟨d :: post.takeWhile (fun x => diacSet.contains x),
    (d :: post).dropWhile (fun x => diacSet.contains x), ?_⟩
  rw [show diacMatchAt (' ' :: d :: post) =
    (if (' ' : Char) = '|' then
      match (d :: post).takeWhile (fun x => pipeFollow.contains x) with
      | [] => none
      | run => some ('|' :: run, (d :: post).dropWhile (fun x => pipeFollow.contains x))
    else if ((' ' = '\\' ∨ ' ' = '/') ∧ (d = '(' ∨ d = ')' ∨ d = '+')) then
      some ([' ', d], post)
    else if consSpace.contains ' ' then
      match (d :: post).takeWhile (fun x => diacSet.contains x) with
      | [] => none
      | run => some (' ' :: run, (d :: post).dropWhile (fun x => diacSet.contains x))
    else none) from rfl]
  rw [if_neg (by decide), if_neg hcond, if_pos (by decide), htw]


lemma diacScanF_cons (n : Nat) (c : Char) (rest : Str) :
    diacScanF (n + 1) (c :: rest) =
      match diacMatchAt (c :: rest) with
      | some (m, r) => m :: diacScanF n r
      | none => diacScanF n rest := rfl

lemma diacScanF_space :
    ∀ (fuel : Nat) (l pre post : Str) (d : Char), l.length ≤ fuel →
      l = pre ++ ' ' :: d :: post → d ∈ diacSet →
      ∃ m ∈ diacScanF fuel l,
        ∃ run, m = ' ' :: run ∧ run ≠ [] ∧ ∀ c ∈ run, c ∈ diacSet := by
  intro fuel
  induction fuel with
  | zero =>
    intro l pre post d hlen heq hd
    subst heq
    simp at hlen
  | succ n ih =>
    intro l pre post d hlen heq hd
    cases pre with
    | nil =>
      simp only [List.nil_append] at heq
      subst heq
      obtain ⟨run, r, hmatch⟩ := diacMatchAt_space d post hd
      have hscan : diacScanF (n + 1) (' ' :: d :: post) = (' ' :: run) :: diacScanF n r := by
        rw [diacScanF_cons, hmatch]
      refine ⟨' ' :: run, by rw [hscan]; exact List.mem_cons_self _ _, run, rfl, ?_⟩
      exact (diacMatchAt_some hmatch).2.2.2 run rfl
    | cons p0 pre' =>
      simp only [List.cons_append] at heq
      subst heq
      have hlen' : (pre' ++ ' ' :: d :: post).length ≤ n := by
        simp only [List.length_cons, List.length_append] at hlen ⊢
        omega
      cases hm : diacMatchAt (p0 :: (pre' ++ ' ' :: d :: post)) with
      | none =>
        have hscan : diacScanF (n + 1) (p0 :: (pre' ++ ' ' :: d :: post)) =
            diacScanF n (pre' ++ ' ' :: d :: post) := by
          rw [diacScanF_cons, hm]
        obtain ⟨m, hmem, hstruct⟩ := ih (pre' ++ ' ' :: d :: post) pre' post d hlen' rfl hd
        exact ⟨m, by rw [hscan]; exact hmem, hstruct⟩
      | some pr =>
        obtain ⟨m, r⟩ := pr
        obtain ⟨hdecomp, hlen2, htail, hhead⟩ := diacMatchAt_some hm
        have hscan : diacScanF (n + 1) (p0 :: (pre' ++ ' ' :: d :: post)) =
            m :: diacScanF n r := by
          rw [diacScanF_cons, hm]
        have hrlen : r.length ≤ n := by
          have := congrArg List.length hdecomp
          simp only [List.length_cons, List.length_append] at this hlen
          omega
        have hkey : (p0 :: pre') ++ (' ' :: d :: post) = m ++ r := by simpa using hdecomp
        rcases List.append_eq_append_iff.mp hkey with ⟨a, ha1, ha2⟩ | ⟨a, ha1, ha2⟩
        · cases a with
          | nil =>
            simp only [List.append_nil] at ha1
            rw [List.nil_append] at ha2
            obtain ⟨m2, hmem, hstruct⟩ := ih r [] post d hrlen ha2.symm hd
            exact ⟨m2, by rw [hscan]; exact List.mem_cons_of_mem _ hmem, hstruct⟩
          | cons x a' =>
            injection ha2 with hx ha2'
            subst hx
            rw [ha1] at htail
            have hsp : (' ' : Char) ∈ ((p0 :: pre') ++ ' ' :: a').tail := by
              simp
            exact absurd rfl (htail ' ' hsp)
        · obtain ⟨m2, hmem, hstruct⟩ := ih r a post d hrlen ha2 hd
          exact ⟨m2, by rw [hscan]; exact List.mem_cons_of_mem _ hmem, hstruct⟩

/-- C10: an ASCII input containing a space directly followed by a diacritic
mark fails `validate` with `InvalidDiacriticOrder`, and some reported
sequence is a space followed by a nonempty run of diacritic marks — the
validator regex treats the space like a base consonant. -/
theorem c10_space_diacritic (l pre post : Str) (d : Char)
    (hascii : ∀ c ∈ l, is_ascii c = true)
    (heq : l = pre ++ ' ' :: d :: post) (hd : d ∈ diacSet) :
    ∃ v, validate l = .error ( InvalidDiacriticOrder v) ∧
      ∃ m ∈ v, ∃ run, m = ' ' :: run ∧ run ≠ [] ∧ ∀ c ∈ run, c ∈ diacSet := by
  have hca : check_ascii l = .ok () := by
    unfold check_ascii
    rw [if_pos (List.all_eq_true.mpr hascii)]
  obtain ⟨m, hmem, hstruct⟩ := diacScanF_space l.length l pre post d le_rfl heq hd
  refine ⟨diacScanF l.length l, ?_, m, hmem, hstruct⟩
  have hne : diacScanF l.length l ≠ [] := by
    intro hnil
    rw [hnil] at hmem
    exact absurd hmem (List.not_mem_nil m)
  have hdo : diacritics_ordered l = .error ( InvalidDiacriticOrder (diacScanF l.length l)) := by
    unfold diacritics_ordered
    cases hs : diacScanF l.length l with
    | nil => exact absurd hs hne
    | cons a as => rfl
  exact validate_of_diac_error hca hdo

/-- C10, witness at the input `" )"`. -/
theorem c10_space_diacritic_witness :
    ∃ v, validate ([' ', ')'] : Str) = .error ( InvalidDiacriticOrder v) ∧
      ∃ m ∈ v, ∃ run, m = ' ' :: run ∧ run ≠ [] ∧ ∀ c ∈ run, c ∈ diacSet :=
  c10_space_diacritic [' ', ')'] [] [] ')' (by decide) rfl (by decide)

end Betacode

namespace Betacode

open ValidationError

/-! Identity and homomorphism lemmas for the pipeline stages, for claim C5
(and reused later). -/

lemma markStars_no_star : ∀ l : Str, '*' ∉ l → markStars l = some l := by
  intro l
  induction l using markStars.induct with
  | case1 => intro _; rfl
  | case2 => intro h; exact absurd (by simp) h
  | case3 c hc => intro _; simp [markStars, hc]
  | case4 rest ih => intro h; exact absurd (by simp) h
  | case5 d rest hd ih => intro h; exact absurd (by simp) h
  | case6 c d rest hc ih =>
    intro h
    rw [markStars, if_neg hc, ih (fun hm => h (List.mem_cons_of_mem _ hm))]
    rfl

lemma stripStars_no_star : ∀ l : Str, '*' ∉ l → stripStars l = l := by
  intro l
  induction l using stripStars.induct with
  | case1 => intro _; rfl
  | case2 c => intro _; rfl
  | case3 d rest hd ih => intro h; exact absurd (by simp) h
  | case4 d rest hd ih => intro h; exact absurd (by simp) h
  | case5 c d rest hc ih =>
    intro h
    rw [stripStars, if_neg hc, ih (fun hm => h (List.mem_cons_of_mem _ hm))]

lemma find_upper_no_star (l : Str) (h : '*' ∉ l) : find_upper l = some l := by
  unfold find_upper
  rw [markStars_no_star l h, Option.map_some', stripStars_no_star l h]

lemma reorderMatchAt_accent {l m r : Str} (h : reorderMatchAt l = some (m, r)) :
    ∃ a ∈ l, isAccent a = true := by
  unfold reorderMatchAt at h
  split at h
  next a r2 hd =>
    split at h
    next ha =>
      have hsub : List.Sublist (a :: r2) l := hd ▸ List.dropWhile_sublist _
      exact ⟨a, hsub.mem (List.mem_cons_self a r2), ha⟩
    next ha => exact absurd h (by simp)
  next hd => exact absurd h (by simp)

lemma reorderMatchAt_none (l : Str) (h : ∀ c ∈ l, isAccent c = false) :
    reorderMatchAt l = none := by
  cases hm : reorderMatchAt l with
  | none => rfl
  | some pr =>
    obtain ⟨m, r⟩ := pr
    obtain ⟨a, ha, haa⟩ := reorderMatchAt_accent hm
    rw [h a ha] at haa
    exact absurd haa (by simp)

lemma reorderF_id : ∀ (fuel : Nat) (l : Str), (∀ c ∈ l, isAccent c = false) →
    reorderF fuel l = l := by
  intro fuel
  induction fuel with
  | zero => intro l _; rfl
  | succ n ih =>
    intro l h
    cases l with
    | nil => rfl
    | cons c rest =>
      rw [reorderF, reorderMatchAt_none _ h, ih rest (fun x hx => h x (List.mem_cons_of_mem _ hx))]

lemma reorder_id (l : Str) (h : ∀ c ∈ l, isAccent c = false) :
    reorder_diacritics l = l := reorderF_id l.length l h

/-- The change a single rule makes to one character: only a single-character
rule can rewrite it. -/
def oneStep (r : Rule) (c : Char) : Char :=
  match r with
  | .one p u => if c = p then u else c
  | _ => c

/-- The change a chain of rules makes to one character standing clear of all
multi-character patterns. -/
def foldChar (rs : List Rule) (c : Char) : Char := rs.foldl (fun c r => oneStep r c) c

/-- A character is safe for a rule chain when, at each stage, it is not the
head of a multi-character pattern. -/
def safeFor : List Rule → Char → Bool
  | [], _ => true
  | r :: rs, c =>
    (match r with
     | .one _ _ => true
     | .two p _ _ => decide (c ≠ p)
     | .three p _ _ _ => decide (c ≠ p)) && safeFor rs (oneStep r c)

lemma applyRule_nil (r : Rule) : applyRule r [] = [] := by
  cases r <;> rfl

lemma applyRules_nil : ∀ rs : List Rule, applyRules rs [] = [] := by
  intro rs
  induction rs with
  | nil => rfl
  | cons r rs ih => rw [applyRules, applyRule_nil, ih]

lemma applyRule_cons_safe (r : Rule) (c : Char) (t : Str)
    (h : match r with
         | .one _ _ => True
         | .two p _ _ => c ≠ p
         | .three p _ _ _ => c ≠ p) :
    applyRule r (c :: t) = oneStep r c :: applyRule r t := by
  cases r with
  | one p u => rfl
  | two p q u =>
    simp only at h
    cases t with
    | nil => simp [applyRule, replace2, oneStep]
    | cons d rest =>
      rw [applyRule, replace2, if_neg (fun hh => h hh.1)]
      rfl
  | three p q rr u =>
    simp only at h
    cases t with
    | nil => simp [applyRule, replace3, oneStep]
    | cons d rest =>
      cases rest with
      | nil => simp [applyRule, replace3, oneStep]
      | cons e rest' =>
        rw [applyRule, replace3, if_neg (fun hh => h hh.1)]
        rfl

lemma applyRules_cons_safe :
    ∀ (rs : List Rule) (c : Char) (t : Str), safeFor rs c = true →
      applyRules rs (c :: t) = foldChar rs c :: applyRules rs t := by
  intro rs
  induction rs with
  | nil => intro c t _; rfl
  | cons r rs ih =>
    intro c t h
    cases r with
    | one p u =>
      have hand : (true && safeFor rs (oneStep (.one p u) c)) = true := h
      rw [Bool.true_and] at hand
      rw [applyRules, applyRule_cons_safe (.one p u) c t trivial,
        ih (oneStep (.one p u) c) (applyRule (.one p u) t) hand]
      rfl
    | two p q u =>
      have hand : (decide (c ≠ p) && safeFor rs (oneStep (.two p q u) c)) = true := h
      rw [Bool.and_eq_true] at hand
      have hne : c ≠ p := by simpa using hand.1
      rw [applyRules, applyRule_cons_safe (.two p q u) c t hne,
        ih (oneStep (.two p q u) c) (applyRule (.two p q u) t) hand.2]
      rfl
    | three p q rr u =>
      have hand : (decide (c ≠ p) && safeFor rs (oneStep (.three p q rr u) c)) = true := h
      rw [Bool.and_eq_true] at hand
      have hne : c ≠ p := by simpa using hand.1
      rw [applyRules, applyRule_cons_safe (.three p q rr u) c t hne,
        ih (oneStep (.three p q rr u) c) (applyRule (.three p q rr u) t) hand.2]
      rfl

lemma applyRules_map_safe (rs : List Rule) :
    ∀ l : Str, (∀ c ∈ l, safeFor rs c = true) →
      applyRules rs l = l.map (foldChar rs) := by
  intro l
  induction l with
  | nil => intro _; rw [applyRules_nil]; rfl
  | cons c t ih =>
    intro h
    rw [applyRules_cons_safe rs c t (h c (List.mem_cons_self _ _)),
      ih (fun x hx => h x (List.mem_cons_of_mem _ hx))]
    rfl

lemma sigmaFinalPass_id : ∀ l : Str, (∀ c ∈ l, c ∉ sigmaClass) →
    sigmaFinalPass l = l := by
  intro l
  induction l using sigmaFinalPass.induct with
  | case1 => intro _; rfl
  | case2 c => intro _; rfl
  | case3 c d rest hcd ih =>
    intro h
    have hd : d ∈ sigmaClass := by simpa using hcd.2
    exact absurd hd (h d (by simp))
  | case4 c d rest hcd ih =>
    intro h
    rw [sigmaFinalPass, if_neg hcd, ih (fun x hx => h x (List.mem_cons_of_mem _ hx))]

lemma replace2_id (p q u : Char) : ∀ l : Str, p ∉ l → replace2 p q u l = l := by
  intro l
  induction l using replace2.induct p q u with
  | case1 => intro _; rfl
  | case2 c => intro _; rfl
  | case3 c d rest hcd ih =>
    intro h
    exact absurd (hcd.1 ▸ List.mem_cons_self c (d :: rest)) h
  | case4 c d rest hcd ih =>
    intro h
    rw [replace2, if_neg hcd, ih (fun hm => h (List.mem_cons_of_mem _ hm))]

lemma mem_sigmaEnd : ∀ l : Str, ∀ x ∈ sigmaEnd l, x ∈ l ∨ x = 'ς' := by
  intro l
  induction l using sigmaEnd.induct with
  | case1 => intro x hx; exact absurd hx (List.not_mem_nil x)
  | case2 =>
    intro x hx
    simp [sigmaEnd] at hx
    exact .inr hx
  | case3 c hc =>
    intro x hx
    simp only [sigmaEnd, if_neg hc] at hx
    exact .inl hx
  | case4 c d rest ih =>
    intro x hx
    rw [sigmaEnd] at hx
    rcases List.mem_cons.mp hx with rfl | hx
    · exact .inl (List.mem_cons_self _ _)
    · rcases ih x hx with h | h
      · exact .inl (List.mem_cons_of_mem _ h)
      · exact .inr h

lemma flatMap_kdecomp_id : ∀ l : Str, (∀ c ∈ l, kdecomp c = [c]) →
    l.flatMap kdecomp = l := by
  intro l
  induction l with
  | nil => intro _; rfl
  | cons c rest ih =>
    intro h
    rw [List.flatMap_cons, h c (List.mem_cons_self _ _),
      ih (fun x hx => h x (List.mem_cons_of_mem _ hx))]
    rfl

lemma canonReorder_id : ∀ l : Str, (∀ c ∈ l, ccc c = 0) → canonReorder l = l := by
  intro l
  induction l with
  | nil => intro _; rfl
  | cons c rest ih =>
    intro h
    rw [canonReorder, if_pos (h c (List.mem_cons_self _ _)),
      ih (fun x hx => h x (List.mem_cons_of_mem _ hx))]

lemma pairTable_snd_ccc : ∀ e ∈ pairTable, ccc e.1.2 ≠ 0 := by decide

lemma composePair_none_of_ccc0 (a b : Char) (h : ccc b = 0) : composePair a b = none := by
  unfold composePair
  cases hf : pairTable.find? (fun e => e.1.1 == a && e.1.2 == b) with
  | none => rfl
  | some e =>
    have hm := List.mem_of_find?_eq_some hf
    have hp := List.find?_some hf
    simp only [Bool.and_eq_true, beq_iff_eq] at hp
    have : ccc e.1.2 = 0 := by rw [hp.2]; exact h
    exact absurd this (pairTable_snd_ccc e hm)

lemma composeRun_id : ∀ (l : Str) (s : Char), (∀ c ∈ l, ccc c = 0) →
    composeRun s [] l = s :: l := by
  intro l
  induction l with
  | nil => intro s _; rfl
  | cons c rest ih =>
    intro s h
    have hc : ccc c = 0 := h c (List.mem_cons_self _ _)
    rw [composeRun, if_pos hc, if_pos rfl, composePair_none_of_ccc0 s c hc,
      ih c (fun x hx => h x (List.mem_cons_of_mem _ hx))]

lemma canonCompose_id (l : Str) (h : ∀ c ∈ l, ccc c = 0) : canonCompose l = l := by
  cases l with
  | nil => rfl
  | cons c rest =>
    rw [canonCompose, if_pos (h c (List.mem_cons_self _ _)),
      composeRun_id rest c (fun x hx => h x (List.mem_cons_of_mem _ hx))]

lemma normalize_id (l : Str) (h1 : ∀ c ∈ l, kdecomp c = [c]) (h2 : ∀ c ∈ l, ccc c = 0) :
    normalize_unicode l = l := by
  unfold normalize_unicode
  rw [flatMap_kdecomp_id l h1, canonReorder_id l h2, canonCompose_id l h2]

end Betacode

namespace Betacode

open ValidationError

/-- The Betacode letters of the accepted alphabet: the letters among
`valid_chars` (A to Z and a to z without J and j). -/
def betaLetters : Str := valid_chars.filter isAsciiLetter

/-- The fixed per-character substitution table of claim C5: each accepted
Betacode letter to the lowercase Greek letter that `convert` produces for it
(capitals fold to the same letter, since `convert` lowercases first). -/
def betaTable : List (Char × Char) :=
  [('A', 'α'), ('a', 'α'), ('B', 'β'), ('b', 'β'), ('C', 'ξ'), ('c', 'ξ'),
   ('D', 'δ'), ('d', 'δ'), ('E', 'ε'), ('e', 'ε'), ('F', 'φ'), ('f', 'φ'),
   ('G', 'γ'), ('g', 'γ'), ('H', 'η'), ('h', 'η'), ('I', 'ι'), ('i', 'ι'),
   ('K', 'κ'), ('k', 'κ'), ('L', 'λ'), ('l', 'λ'), ('M', 'μ'), ('m', 'μ'),
   ('N', 'ν'), ('n', 'ν'), ('O', 'ο'), ('o', 'ο'), ('P', 'π'), ('p', 'π'),
   ('Q', 'θ'), ('q', 'θ'), ('R', 'ρ'), ('r', 'ρ'), ('S', 'σ'), ('s', 'σ'),
   ('T', 'τ'), ('t', 'τ'), ('U', 'υ'), ('u', 'υ'), ('V', 'ϝ'), ('v', 'ϝ'),
   ('W', 'ω'), ('w', 'ω'), ('X', 'χ'), ('x', 'χ'), ('Y', 'ψ'), ('y', 'ψ'),
   ('Z', 'ζ'), ('z', 'ζ')]

/-- The per-character substitution of claim C5. -/
def betaChar (c : Char) : Char := lookupD betaTable c

/-- The lowercase ASCII Betacode letters. -/
def betaLow : Str := ("abcdefghiklmnopqrstuvwxyz".toList)

/-- The Greek letters reachable from Betacode letters. -/
def betaGreekLow : Str := ("αβξδεφγηικλμνοπθρστυϝωχψζ".toList)

set_option maxHeartbeats 1000000 in
lemma betaLetters_map_lower : betaLetters.map lowerChar = betaLow ++ betaLow := by
  decide

set_option maxHeartbeats 1000000 in
lemma betaLow_facts : ∀ x ∈ betaLow,
    x ≠ '*' ∧ isAccent x = false ∧ safeFor convRules x = true := by
  decide

set_option maxHeartbeats 2000000 in
lemma betaFold : ∀ c ∈ betaLetters, foldChar convRules (lowerChar c) = betaChar c := by
  decide

set_option maxHeartbeats 1000000 in
lemma betaGreek_mem : ∀ c ∈ betaLetters, betaChar c ∈ betaGreekLow := by
  decide

set_option maxHeartbeats 2000000 in
lemma betaGreekLow_facts : ∀ x ∈ betaGreekLow, x ∉ sigmaClass ∧ x ≠ 's' ∧ x ≠ 'S' ∧
    kdecomp x = [x] ∧ ccc x = 0 := by
  decide

attribute [irreducible] foldChar betaChar

lemma lowerChar_mem_betaLow (c : Char) (hc : c ∈ betaLetters) :
    lowerChar c ∈ betaLow := by
  have h1 := List.mem_map_of_mem lowerChar hc
  rw [betaLetters_map_lower] at h1
  rcases List.mem_append.mp h1 with h | h
  · exact h
  · exact h

set_option maxHeartbeats 1600000 in
/-- C5: the claim as stated is refutable: no per-character table can reproduce
`convert` on letters-only strings, because the final-sigma rule is position
dependent: `convert "s" = "ς"` but `convert "ss" = "σς"`. -/
theorem c5_pointwise_counterexample :
    ¬ ∃ T : Char → Str, ∀ s : Str, (∀ c ∈ s, c ∈ betaLetters) →
      convert s = some (s.flatMap T) := by
  rintro ⟨T, hT⟩
  have h1 := hT ['s'] (by decide)
  have h2 := hT ['s', 's'] (by decide)
  rw [show convert ['s'] = some ['ς'] from by decide] at h1
  rw [show convert ['s', 's'] = some ['σ', 'ς'] from by decide] at h2
  simp only [List.flatMap_cons, List.flatMap_nil, List.append_nil,
    Option.some.injEq] at h1 h2
  rw [← h1] at h2
  exact absurd h2 (by decide)

set_option maxHeartbeats 1600000 in
/-- C5, amended: on letters-only strings `convert` is the pointwise
application of the fixed table `betaChar`, followed by the end-of-string
final-sigma rewrite (a trailing `σ` becomes `ς`); no case or diacritic logic
is engaged, but the last letter is not position independent. -/
theorem c5_letters_pointwise (s : Str) (h : ∀ c ∈ s, c ∈ betaLetters) :
    convert s = some (sigmaEnd (s.map betaChar)) := by
  unfold convert
  have hstar : '*' ∉ to_lowercase s := by
    intro hm
    rw [to_lowercase, List.mem_map] at hm
    obtain ⟨c, hc, hlc⟩ := hm
    exact (betaLow_facts _ (lowerChar_mem_betaLow c (h c hc))).1 hlc
  rw [find_upper_no_star _ hstar, Option.map_some', Option.some.injEq]
  have hacc : ∀ c ∈ to_lowercase s, isAccent c = false := by
    intro c hc
    rw [to_lowercase, List.mem_map] at hc
    obtain ⟨d, hd, hld⟩ := hc
    rw [← hld]
    exact (betaLow_facts _ (lowerChar_mem_betaLow d (h d hd))).2.1
  rw [reorder_id _ hacc]
  have hsafe : ∀ c ∈ to_lowercase s, safeFor convRules c = true := by
    intro c hc
    rw [to_lowercase, List.mem_map] at hc
    obtain ⟨d, hd, hld⟩ := hc
    rw [← hld]
    exact (betaLow_facts _ (lowerChar_mem_betaLow d (h d hd))).2.2
  unfold ascii_to_unicode
  rw [applyRules_map_safe convRules _ hsafe]
  have hmapmap : (to_lowercase s).map (foldChar convRules) = s.map betaChar := by
    rw [to_lowercase, List.map_map]
    apply List.map_congr_left
    intro c hc
    exact betaFold c (h c hc)
  rw [hmapmap]
  have hgm : ∀ x ∈ s.map betaChar, x ∉ sigmaClass ∧ x ≠ 's' ∧ x ≠ 'S' ∧
      kdecomp x = [x] ∧ ccc x = 0 := by
    intro x hx
    rw [List.mem_map] at hx
    obtain ⟨d, hd, hxd⟩ := hx
    rw [← hxd]
    exact betaGreekLow_facts _ (betaGreek_mem d (h d hd))
  unfold sigma_handler
  rw [sigmaFinalPass_id _ (fun c hc => (hgm c hc).1)]
  have hse : ∀ x ∈ sigmaEnd (s.map betaChar), x ∈ s.map betaChar ∨ x = 'ς' := by
    intro x hx
    exact mem_sigmaEnd _ x hx
  have hs_not : ('s' : Char) ∉ sigmaEnd (s.map betaChar) := by
    intro hm
    rcases hse 's' hm with hmem | habs
    · exact (hgm 's' hmem).2.1 rfl
    · exact absurd habs (by decide)
  have hS_not : ('S' : Char) ∉ sigmaEnd (s.map betaChar) := by
    intro hm
    rcases hse 'S' hm with hmem | habs
    · exact (hgm 'S' hmem).2.2.1 rfl
    · exact absurd habs (by decide)
  rw [replace2_id 's' '1' 'ς' _ hs_not, replace2_id 's' '3' 'ϲ' _ hs_not,
    replace2_id 'S' '3' 'Ϲ' _ hS_not]
  apply normalize_id
  · intro c hc
    rcases hse c hc with hmem | rfl
    · exact (hgm c hmem).2.2.2.1
    · decide
  · intro c hc
    rcases hse c hc with hmem | rfl
    · exact (hgm c hmem).2.2.2.2
    · decide

set_option maxHeartbeats 1600000 in
/-- C5, witness for the amended theorem at the input `"basis"`. -/
theorem c5_letters_pointwise_witness :
    convert ("basis".toList) = some (sigmaEnd (("basis".toList).map betaChar)) :=
  c5_letters_pointwise ("basis".toList) (by decide)

end Betacode

namespace Betacode

/-- Modelled from the spec: the reverse substitution table of `revert`, the
converter's inverse transform from Greek Unicode back to Betacode (the
function is referenced by the CLI and exercised by the repository test
`revert_ok`, but its source is not under `src/`). Each Greek letter maps to
its Betacode spelling, capitals take a `*` prefix, precomposed letters spell
their diacritics after the base letter, and any character outside the table
(in particular plain ASCII such as `'#'` and `'3'`) is left unchanged. -/
def revTable : List (Char × Str) :=
  [('α', ['a']), ('β', ['b']), ('ξ', ['c']), ('δ', ['d']), ('ε', ['e']),
   ('φ', ['f']), ('γ', ['g']), ('η', ['h']), ('ι', ['i']), ('κ', ['k']),
   ('λ', ['l']), ('μ', ['m']), ('ν', ['n']), ('ο', ['o']), ('π', ['p']),
   ('θ', ['q']), ('ρ', ['r']), ('σ', ['s']), ('ς', ['s']), ('τ', ['t']),
   ('υ', ['u']), ('ϝ', ['v']), ('ω', ['w']), ('χ', ['x']), ('ψ', ['y']),
   ('ζ', ['z']),
   ('Α', ['*', 'a']), ('Β', ['*', 'b']), ('Ξ', ['*', 'c']), ('Δ', ['*', 'd']),
   ('Ε', ['*', 'e']), ('Φ', ['*', 'f']), ('Γ', ['*', 'g']), ('Η', ['*', 'h']),
   ('Ι', ['*', 'i']), ('Κ', ['*', 'k']), ('Λ', ['*', 'l']), ('Μ', ['*', 'm']),
   ('Ν', ['*', 'n']), ('Ο', ['*', 'o']), ('Π', ['*', 'p']), ('Θ', ['*', 'q']),
   ('Ρ', ['*', 'r']), ('Σ', ['*', 's']), ('Τ', ['*', 't']), ('Υ', ['*', 'u']),
   ('Ϝ', ['*', 'v']), ('Ω', ['*', 'w']), ('Χ', ['*', 'x']), ('Ψ', ['*', 'y']),
   ('Ζ', ['*', 'z']),
   ('ῆ', ['h', '=']), ('ἄ', ['a', ')', '/']), ('ὰ', ['a', '\\']),
   ('ϊ', ['i', '+']), ('ά', ['a', '/']), ('Ἀ', ['*', 'a', ')'])]

/-- Modelled from the spec: the image of one character under `revert`. -/
def revChar (c : Char) : Str :=
  match revTable.find? (fun e => e.1 == c) with
  | some e => e.2
  | none => [c]

/-- Modelled from the spec: `revert` maps a Greek Unicode string back to
Betacode character by character. -/
def revert (s : Str) : Str := s.flatMap revChar

lemma revert_repo_test :
    revert (("μῆνιν ἄειδε θεὰ Πηληϊάδεω Ἀχιλῆος".toList))
      = ("mh=nin a)/eide qea\\ *phlhi+a/dew *a)xilh=os".toList) := by
  decide

set_option maxHeartbeats 1600000 in
/-- C3: the round-trip property fails on the input `"#;"`, which the
validator accepts and which uses no case marker at all: `convert "#;"`
is `"#3"` (the Betacode question mark `';'` surfaces as the ASCII digit
`'3'` after NFKC), `revert` leaves the ASCII string `"#3"` unchanged, and
re-converting yields `"ϙ"` (the `"#3"` digraph is Betacode for koppa), not
`"#3"`: so `convert (revert (convert x)) ≠ convert x` at `x = "#;"`. -/
theorem c3_roundtrip_counterexample :
    validate ("#;".toList) = Except.ok () ∧
    ('*' : Char) ∉ ("#;".toList) ∧
    (∀ c ∈ ("#;".toList), ¬ ('A' ≤ c ∧ c ≤ 'Z')) ∧
    (convert ("#;".toList)).map revert = some ("#3".toList) ∧
    convert ("#3".toList) = some ("ϙ".toList) ∧
    convert ("#3".toList) ≠ convert ("#;".toList) := by
  refine ⟨by decide, by decide, by decide, ?_, by decide, ?_⟩
  · rw [show convert ("#;".toList) = some ("#3".toList) from by decide]
    decide
  · rw [show convert ("#3".toList) = some ("ϙ".toList) from by decide,
      show convert ("#;".toList) = some ("#3".toList) from by decide]
    decide

end Betacode
